import Mathlib

/-!
# Verification of `main.py` (PayTraq → Google Sheets product sync)

Shallow embedding of the pure core of `src/main.py`:

* a model of parsed-XML / Python values (`PVal`) as produced by `xmltodict`,
* the product-list parser `parse_products_xml`,
* the paginator `fetch_all_products` (page requests abstracted as a function
  from page numbers to responses),
* the record normalizer `normalize_product_full_for_sheet`,
* the spreadsheet-mirror operations (`ensure_header`, `first_empty_row`,
  `read_existing_codes`, `read_code_to_row_map`, row writes) over a grid model
  `Grid := List (List String)`, and
* the two sync endpoints' pure reconciliation logic.

Python semantics notes used throughout:

* `d.get(k)` on a `dict` returns the value or `None`; calling `.get` on a
  non-dict raises `AttributeError`.  Fallible operations are embedded in
  `Option`: `none` models an uncaught Python exception.
* `x or y` returns `x` when `x` is truthy, else `y`; truthiness of the
  modelled values: `None`, `""`, `{}`, `[]` are falsy, everything else truthy.
* `s.strip()` trims leading/trailing whitespace; `s.lower()` lowercases.
* String slicing `s[:300]` and `str.replace` act per character.
* String comparison (`<=`) is lexicographic, as is Lean's `String` order.
-/

set_option linter.unusedVariables false

namespace ProductsSync

/-- Model of a Python value as produced by `xmltodict.parse`:
strings, `None`, dicts (association lists with distinct keys, insertion
order preserved) and lists. -/
inductive PVal where
  | str : String → PVal
  | null : PVal
  | dict : List (String × PVal) → PVal
  | list : List PVal → PVal

/-- Python truthiness for the modelled values. -/
def pyTruthy : PVal → Bool
  | .str s => !(s == "")
  | .null => false
  | .dict d => !d.isEmpty
  | .list l => !l.isEmpty

/-- `x or {}`: keep a truthy value, replace a falsy one by the empty dict. -/
def pyOrDict (x : PVal) : PVal :=
  if pyTruthy x then x else .dict []

/-- Python whitespace test used by `str.strip` (ASCII whitespace). -/
def pyWS (c : Char) : Bool :=
  c == ' ' || c == '\t' || c == '\n' || c == '\r' || c == '\x0b' || c == '\x0c'

/-- `s.strip()`: drop leading and trailing whitespace. -/
def pyStrip (s : String) : String :=
  String.mk (((s.data.dropWhile pyWS).reverse.dropWhile pyWS).reverse)

/-- `s[:n]` on a Python string (slice by characters). -/
def strTake (s : String) (n : Nat) : String :=
  String.mk (s.data.take n)

/-- `s.replace("\n", " ")`: replace each newline character by a space. -/
def stripNewlines (s : String) : String :=
  String.mk (s.data.map (fun c => if c == '\n' then ' ' else c))

/-- `(text or "")[:300].replace("\n", " ")` — the diagnostic body snippet. -/
def body_snippet (text : String) : String :=
  stripNewlines (strTake text 300)

/-- `s.lower()` (ASCII case folding, character by character). -/
def pyLower (s : String) : String :=
  String.mk (s.data.map Char.toLower)

/-- Strict lexicographic order on character lists (Python string `<`). -/
def charListLt : List Char → List Char → Bool
  | [], [] => false
  | [], _ :: _ => true
  | _ :: _, [] => false
  | a :: as, b :: bs => a < b || (a == b && charListLt as bs)

/-- Python string `<` (lexicographic by code point). -/
def pyStrLt (a b : String) : Bool :=
  charListLt a.data b.data

/-- Python string `<=` (lexicographic by code point). -/
def pyStrLe (a b : String) : Bool :=
  a == b || charListLt a.data b.data

/-- Value of key `k` in a Python dict: the stored value, or `None` when the
key is absent (`d.get(k)`).  Keys in a Python dict are unique, so the first
match is the match. -/
def dval (d : List (String × PVal)) (k : String) : PVal :=
  (((d.find? (fun e => e.1 == k)).map (fun e => e.2)).getD .null)

/-- `v.get(k)`: succeeds only on a dict (`none` models `AttributeError`). -/
def pyGet : PVal → String → Option PVal
  | .dict d, k => some (dval d k)
  | _, _ => none

/-- `v.get(k, dflt)`: the stored value when the key is present (even if it is
`None`), the default when absent; raises on a non-dict. -/
def pyGetD : PVal → String → PVal → Option PVal
  | .dict d, k, dflt => some (((d.find? (fun e => e.1 == k)).map (fun e => e.2)).getD dflt)
  | _, _, _ => none

/-- Key membership in a dict (`k in d`); only used on dict values. -/
def dictFind : PVal → String → Option PVal
  | .dict d, k => (d.find? (fun e => e.1 == k)).map (fun e => e.2)
  | _, _ => none

/-- `(x or "").strip()`: a falsy value becomes `""`; a string is stripped; a
truthy non-string raises (`.strip()` is not defined on it). -/
def pyOrEmptyStrip : PVal → Option String
  | .str s => some (pyStrip s)
  | .null => some ""
  | .dict [] => some ""
  | .list [] => some ""
  | _ => none

/-- Python `str()` of the values appearing in diagnostic f-strings.  Only
string and `None` payloads are modelled faithfully (`repr` of nested
dicts/lists is not needed by any theorem below, which restrict error-node
values to strings). -/
def pyStr : PVal → String
  | .str s => s
  | .null => "None"
  | _ => ""

/-- Lookup in a normalized record (a Python dict from column name to string):
`prod.get(h)` as `Option`. -/
def pyGetS (prod : List (String × String)) (k : String) : Option String :=
  (prod.find? (fun e => e.1 == k)).map (fun e => e.2)

/-! ## Column schema (`PRODUCT_COLUMNS`, main.py lines 26–60) -/

def PRODUCT_COLUMNS : List String :=
  ["ItemID", "Code", "Name", "Status", "Type", "BarCode",
   "UnitID", "UnitName", "GroupID", "GroupName",
   "CountryOrigin", "CommodityCode", "HasImage", "HasLots",
   "Weight", "OrderLeadTime", "Cost", "StandardCost",
   "Qty", "InterimAvailable",
   "PriceGrossAmount", "PriceTaxRate", "PriceCurrency", "PriceDiscount",
   "SupplierName", "SupplierProductCode", "SupplierProductName",
   "PurchasePrice", "PurchasePriceCurrency", "PurchasePriceIncludeTax",
   "SupplierIsDefault", "CreatedUTC", "UpdatedUTC"]

/-! ## Record normalizer (`normalize_product_full_for_sheet`, lines 233–292) -/

/-- The `Suppliers → Supplier` node flattened to a Python list, as iterated by
the selection loop:
* a single mapping is wrapped into a one-element list (`isinstance(..., dict)`),
* a list is kept,
* `None` raises (`for s in None` is a `TypeError`),
* iterating a non-empty string yields characters whose `.get` raises, which we
  collapse to the same failure; the empty string iterates zero times. -/
def toSupplierList : PVal → Option (List PVal)
  | .dict d => some [.dict d]
  | .list l => some l
  | .str "" => some []
  | _ => none

/-- `(s.get("IsDefault") or "").strip().lower() == "true"` with `s.get`
already performed (argument is the raw flag value). -/
def flag_is_true (x : PVal) : Option Bool := do
  let fs ← pyOrEmptyStrip x
  pure (pyLower fs == "true")

/-- The selection loop: first supplier whose `IsDefault` flag strips and
lowercases to `"true"` (`some none` = loop finished without a hit). -/
def find_default_supplier : List PVal → Option (Option PVal)
  | [] => some none
  | s :: rest => do
      let x ← pyGet s "IsDefault"
      let b ← flag_is_true x
      if b then pure (some s) else find_default_supplier rest

/-- Lines 249–256: scan for a default supplier, fall back to the first entry
when none is found and the list is non-empty, then `supplier or {}`. -/
def choose_supplier (sups : List PVal) : Option PVal := do
  let found ← find_default_supplier sups
  let sup1 : PVal := match found with
    | some s => s
    | none => PVal.null
  let sup2 : PVal :=
    if !pyTruthy sup1 && !sups.isEmpty then sups.headD PVal.null else sup1
  pure (if pyTruthy sup2 then sup2 else PVal.dict [])

/-- Lines 244–256: extract the supplier list from the record and pick the
default (or first) supplier. -/
def pick_supplier (p : PVal) : Option PVal := do
  let supNode ← pyGet p "Suppliers"
  let sv ← pyGetD (pyOrDict supNode) "Supplier" (.list [])
  let sups ← toSupplierList sv
  choose_supplier sups

/-- One field extraction `(container.get(key) or "").strip()`. -/
def field (v : PVal) (k : String) : Option String :=
  (pyGet v k).bind pyOrEmptyStrip

/-- Evaluate the field specifications of the returned dict literal in order;
any raise aborts the whole dict construction. -/
def fieldsOf : List (String × PVal × String) → Option (List (String × String))
  | [] => some []
  | (label, container, key) :: rest => do
      let s ← field container key
      let r ← fieldsOf rest
      pure ((label, s) :: r)

/-- The field specifications of the dict literal at lines 258–292:
output column name, container object, key inside the container. -/
def fieldSpecs (p unit group inv price ts supplier : PVal) :
    List (String × PVal × String) :=
  [("ItemID", p, "ItemID"), ("Code", p, "Code"), ("Name", p, "Name"),
   ("Status", p, "Status"), ("Type", p, "Type"), ("BarCode", p, "BarCode"),
   ("UnitID", unit, "UnitID"), ("UnitName", unit, "UnitName"),
   ("GroupID", group, "GroupID"), ("GroupName", group, "GroupName"),
   ("CountryOrigin", p, "CountryOrigin"), ("CommodityCode", p, "CommodityCode"),
   ("HasImage", p, "HasImage"), ("HasLots", p, "HasLots"),
   ("Weight", p, "Weight"), ("OrderLeadTime", p, "OrderLeadTime"),
   ("Cost", p, "Cost"), ("StandardCost", p, "StandardCost"),
   ("Qty", inv, "Qty"), ("InterimAvailable", inv, "InterimAvailable"),
   ("PriceGrossAmount", price, "GrossAmount"), ("PriceTaxRate", price, "TaxRate"),
   ("PriceCurrency", price, "Currency"), ("PriceDiscount", price, "Discount"),
   ("SupplierName", supplier, "SupplierName"),
   ("SupplierProductCode", supplier, "SupplierProductCode"),
   ("SupplierProductName", supplier, "SupplierProductName"),
   ("PurchasePrice", supplier, "PurchasePrice"),
   ("PurchasePriceCurrency", supplier, "PurchasePriceCurrency"),
   ("PurchasePriceIncludeTax", supplier, "PurchasePriceIncludeTax"),
   ("SupplierIsDefault", supplier, "IsDefault"),
   ("CreatedUTC", ts, "Created"), ("UpdatedUTC", ts, "Updated")]

/-- `normalize_product_full_for_sheet` (lines 233–292).  `none` models an
uncaught Python exception; `some` carries the returned dict as an ordered
association list. -/
def normalize_product_full_for_sheet (p0 : PVal) : Option (List (String × String)) := do
  let p := pyOrDict p0
  let unit := pyOrDict (← pyGet p "Unit")
  let group := pyOrDict (← pyGet p "Group")
  let _tax := pyOrDict (← pyGet p "TaxKeys")
  let inv := pyOrDict (← pyGet p "Inventory")
  let price := pyOrDict (← pyGet p "Price")
  let ts := pyOrDict (← pyGet p "TimeStamps")
  let supplier ← pick_supplier p
  fieldsOf (fieldSpecs p unit group inv price ts supplier)

/-! ## Well-formedness of raw records

`normalize_product_full_for_sheet` treats missing or `None` nested objects
defensively but raises on a truthy non-mapping nested node or a non-string
truthy leaf.  These predicates delimit a domain on which the normalizer
provably never raises. -/

/-- An extracted leaf that `(x or "").strip()` accepts: a string or `None`
(an absent key also reads as `None`). -/
def leafOKb : PVal → Bool
  | .str _ => true
  | .null => true
  | _ => false

/-- The supplier-level keys read from the chosen supplier entry. -/
def supplierKeys : List String :=
  ["SupplierName", "SupplierProductCode", "SupplierProductName", "PurchasePrice",
   "PurchasePriceCurrency", "PurchasePriceIncludeTax", "IsDefault"]

/-- One supplier entry: a mapping whose relevant leaves are strings/None. -/
def supEntryOKb : PVal → Bool
  | .dict d => supplierKeys.all (fun k => leafOKb (dval d k))
  | _ => false

/-- A nested node (`Unit`, `Group`, …): absent/None, or a mapping whose
relevant leaves are strings/None. -/
def nestedOKb (x : PVal) (ks : List String) : Bool :=
  match x with
  | .null => true
  | .dict nd => ks.all (fun k => leafOKb (dval nd k))
  | _ => false

/-- The `Suppliers` node: absent/None, or a mapping whose `Supplier` child is
absent, a single well-formed mapping, or a list of well-formed mappings. -/
def suppliersOKb : PVal → Bool
  | .null => true
  | .dict sd =>
      match (sd.find? (fun e => e.1 == "Supplier")).map (fun e => e.2) with
      | Option.none => true
      | Option.some (PVal.dict d) => supEntryOKb (PVal.dict d)
      | Option.some (PVal.list l) => l.all supEntryOKb
      | Option.some _ => false
  | _ => false

/-- The top-level leaves read directly off the record. -/
def topLeafKeys : List String :=
  ["ItemID", "Code", "Name", "Status", "Type", "BarCode", "CountryOrigin",
   "CommodityCode", "HasImage", "HasLots", "Weight", "OrderLeadTime", "Cost",
   "StandardCost"]

/-- A well-formed raw record: a mapping whose extracted leaves are
strings/None and whose nested nodes are mappings/None/absent. -/
def wfRecord : PVal → Bool
  | .dict d =>
      topLeafKeys.all (fun k => leafOKb (dval d k))
      && nestedOKb (dval d "Unit") ["UnitID", "UnitName"]
      && nestedOKb (dval d "Group") ["GroupID", "GroupName"]
      && nestedOKb (dval d "Inventory") ["Qty", "InterimAvailable"]
      && nestedOKb (dval d "Price") ["GrossAmount", "TaxRate", "Currency", "Discount"]
      && nestedOKb (dval d "TimeStamps") ["Created", "Updated"]
      && suppliersOKb (dval d "Suppliers")
  | _ => false

/-- The supplier-selection predicate the code applies to one entry:
`(s.get("IsDefault") or "").strip().lower() == "true"` as a total Bool
(on non-mappings, where the code would raise, it is `false`). -/
def flagTrueB : PVal → Bool
  | .dict sd =>
      match dval sd "IsDefault" with
      | .str f => pyLower (pyStrip f) == "true"
      | _ => false
  | _ => false

/-- A supplier entry on which the flag test cannot raise. -/
def flagOKb : PVal → Bool
  | .dict sd => leafOKb (dval sd "IsDefault")
  | _ => false

/-! ## XML product-list parser (`parse_products_xml`, lines 97–125) -/

/-- The `<Products><Product>…</Product></Products>` node, as iterated by the
paginator after `items = products_node.get("Product", [])`:
* a single mapping is wrapped to a one-element list,
* a list is kept,
* `None` (an empty `<Product/>`) and `""` are falsy, hence equivalent to an
  empty page for the only consumer (`if not items: break`),
* a non-empty string is iterated character by character by `collected.extend`. -/
def wrapProducts : PVal → List PVal
  | .dict d => [.dict d]
  | .list l => l
  | .null => []
  | .str s => s.data.map (fun c => .str (String.mk [c]))

/-- `" | ".join(f"{k}={v}" for k, v in err_node.items())`. -/
def joinError (d : List (String × PVal)) : String :=
  String.intercalate " | " (d.map (fun kv => kv.1 ++ "=" ++ pyStr kv.2))

/-- `parse_products_xml(xml_text)` (lines 97–125).  The `xmltodict.parse`
outcome is passed in as `parsed` (`Except.error` = the library raised), the
raw text only feeds the body-snippet diagnostic.  `.error` models the
`ValueError` raised by the function; a root or `Products` node that is a
truthy non-dict value would escape as an `AttributeError` in Python and is
modelled as a distinguished error (no theorem depends on those cases). -/
def parse_products_xml (text : String) (parsed : Except String PVal) :
    Except String (List PVal) :=
  match parsed with
  | .error e => .error ("XML_PARSE_ERROR: " ++ e)
  | .ok data =>
      let dataD := pyOrDict data
      match dictFind dataD "Products" with
      | some v =>
          match v with
          | .null => .ok []
          | .str "" => .ok []
          | .dict d =>
              .ok (wrapProducts (((d.find? (fun e => e.1 == "Product")).map
                    (fun e => e.2)).getD (.list [])))
          | _ => .error "PRODUCTS_NODE_NOT_A_MAPPING"
      | none =>
          match dictFind dataD "Error" with
          | some (.dict ed) => .error ("NO_PRODUCTS_NODE: " ++ joinError ed)
          | _ => .error ("NO_PRODUCTS_NODE: " ++ body_snippet text)

/-! ## Catalog paginator (`fetch_all_products`, lines 128–161) -/

/-- One page response from the catalog API: HTTP status, raw body text, and
the `xmltodict.parse` outcome of that body. -/
structure PageResp where
  status : Nat
  text : String
  parsed : Except String PVal

/-- `collected, debug` on success, `None, debug` on failure. -/
inductive FetchResult where
  | success : List PVal → List String → FetchResult
  | failure : List String → FetchResult

def FetchResult.isSuccess : FetchResult → Bool
  | .success _ _ => true
  | .failure _ => false

/-- The per-page debug line `f"page={page} status={status}"`. -/
def dbgLine (pages : Nat → PageResp) (i : Nat) : String :=
  "page=" ++ toString i ++ " status=" ++ toString (pages i).status

/-- The unauthorized diagnostic appended on a 401. -/
def unauthorizedMsg : String :=
  "Unauthorized (401) — pārbaudi PAYTRAQ_API_KEY / PAYTRAQ_API_TOKEN"

/-- The `while page <= max_pages` loop of `fetch_all_products`; `fuel` is the
number of page numbers not yet above `max_pages`. -/
def fetch_loop (pages : Nat → PageResp) :
    Nat → Nat → List PVal → List String → FetchResult
  | 0, _, collected, debug => .success collected debug
  | fuel + 1, page, collected, debug =>
      let r := pages page
      let debug := debug ++ [dbgLine pages page]
      if r.status == 401 then
        .failure (debug ++ [unauthorizedMsg])
      else if 400 ≤ r.status then
        .failure (debug ++ ["HTTP " ++ toString r.status ++ " body_snippet=" ++
          body_snippet r.text])
      else
        match parse_products_xml r.text r.parsed with
        | .error e => .failure (debug ++ ["PARSE_FAIL " ++ strTake e 300])
        | .ok items =>
            if items.isEmpty then .success collected debug
            else fetch_loop pages fuel (page + 1) (collected ++ items) debug

/-- `fetch_all_products` (lines 128–161): pages 1, 2, 3, … until an empty
page, a failure, or the `max_pages` ceiling. -/
def fetch_all_products (pages : Nat → PageResp) (max_pages : Nat) : FetchResult :=
  fetch_loop pages max_pages 1 [] []

/-! ## Today-window classification (lines 406–411 and 498–503) -/

/-- `ts = (p.get("TimeStamps") or {})`; `t = (ts.get(key) or "").strip()`;
`t and (start_iso <= t <= end_iso)` — the membership test both sync
endpoints apply (with `key` = `"Created"` resp. `"Updated"`). -/
def ts_in_window (start_iso end_iso key : String) (p : PVal) : Option Bool := do
  let tsv ← pyGet p "TimeStamps"
  let tv ← pyGet (pyOrDict tsv) key
  let t ← pyOrEmptyStrip tv
  pure (!(t == "") && pyStrLe start_iso t && pyStrLe t end_iso)

/-- The update-sync filter (lines 498–503): keep the raw records whose
`Updated` timestamp passes the window test. -/
def filter_updated_today (start_iso end_iso : String) : List PVal → Option (List PVal)
  | [] => some []
  | p :: rest => do
      let b ← ts_in_window start_iso end_iso "Updated" p
      let r ← filter_updated_today start_iso end_iso rest
      pure (if b then p :: r else r)

/-- The create-sync collection (lines 406–411): normalize each raw record
whose `Created` timestamp passes the window test. -/
def today_created_products (start_iso end_iso : String) :
    List PVal → Option (List (List (String × String)))
  | [] => some []
  | p :: rest => do
      let b ← ts_in_window start_iso end_iso "Created" p
      if b then
        let np ← normalize_product_full_for_sheet p
        let r ← today_created_products start_iso end_iso rest
        pure (np :: r)
      else today_created_products start_iso end_iso rest

/-- Modelled from the spec: the **TimeWindow** membership the spec describes,
"a half-open UTC interval `[start, end)`" — `start <= t < end` on the ISO
strings.  Used only to compare against the source's membership test. -/
def window_spec_halfopen (start_iso end_iso t : String) : Prop :=
  pyStrLe start_iso t = true ∧ pyStrLt t end_iso = true

/-- The interval the code actually implements: non-empty timestamp with
`start <= t <= end` (both bounds included). -/
def window_spec_closed (start_iso end_iso t : String) : Prop :=
  t ≠ "" ∧ pyStrLe start_iso t = true ∧ pyStrLe t end_iso = true

instance (s e t : String) : Decidable (window_spec_halfopen s e t) := by
  unfold window_spec_halfopen
  infer_instance

instance (s e t : String) : Decidable (window_spec_closed s e t) := by
  unfold window_spec_closed
  infer_instance

/-! ## Spreadsheet model

A worksheet is a grid of string cells: the list of its rows, row 1 first.
Cells beyond a stored row's length are empty.  `row_values`/`col_values`
return the cells up to the last non-empty one (Google Sheets API semantics),
and a range update writes the given values into the range starting at its
top-left corner, leaving cells of the sheet beyond the written values
untouched. -/

abbrev Grid := List (List String)

/-- Drop the trailing empty cells of a row or column read-back. -/
def dropTrailingEmpty (l : List String) : List String :=
  (l.reverse.dropWhile (fun v => v == "")).reverse

/-- The full column `c` (1-based) of a grid, one value per stored row. -/
def fullCol (g : Grid) (c : Nat) : List String :=
  g.map (fun row => row.getD (c - 1) "")

/-- `ws.col_values(c)`: column values up to the last non-empty cell. -/
def col_values (g : Grid) (c : Nat) : List String :=
  dropTrailingEmpty (fullCol g c)

/-- `ws.row_values(r)` (1-based): row values up to the last non-empty cell. -/
def row_values (g : Grid) (r : Nat) : List String :=
  dropTrailingEmpty (g.getD (r - 1) [])

/-- Write `vals` into row `r` starting at column A: cells 1..`vals.length`
are replaced, later cells keep their old value; the grid grows if row `r`
does not exist yet. -/
def update_row (g : Grid) (r : Nat) (vals : List String) : Grid :=
  let g' := g ++ List.replicate (r - g.length) []
  g'.set (r - 1) (vals ++ (g'.getD (r - 1) []).drop vals.length)

/-- Write a block of rows starting at row `start` (an `A{start}:…` range
update), one row after another. -/
def write_block (g : Grid) (start : Nat) : List (List String) → Grid
  | [] => g
  | vals :: rest => write_block (update_row g start vals) (start + 1) rest

/-- `first_empty_row(ws)` (lines 181–184): one past the number of values
`col_values(1)` returns — i.e. one past the position of the last non-empty
cell of column A. -/
def first_empty_row (g : Grid) : Nat :=
  let vals := col_values g 1
  if vals.isEmpty then 1 else vals.length + 1

/-- The header-repair computation of `ensure_header` (lines 187–207) on the
current header row: an empty header is replaced by `PRODUCT_COLUMNS`; else
every schema column not present is appended at the end. -/
def ensure_header_list (headers : List String) : List String :=
  if headers.isEmpty then PRODUCT_COLUMNS
  else PRODUCT_COLUMNS.foldl (fun hs col => if col ∈ hs then hs else hs ++ [col]) headers

/-- `ensure_header(ws)`: repair the header list and write row 1 back when it
changed (the loop's `changed` flag is set exactly when a column was appended,
i.e. when the repaired list differs from the current one). -/
def ensure_header_grid (g : Grid) : Grid × List String :=
  let current := row_values g 1
  if current.isEmpty then (update_row g 1 PRODUCT_COLUMNS, PRODUCT_COLUMNS)
  else
    let hs := ensure_header_list current
    if hs = current then (g, hs) else (update_row g 1 hs, hs)

/-- Insertion into a Python dict: overwrite the value of an existing key in
place, else append the pair. -/
def dictInsert (d : List (String × Nat)) (k : String) (v : Nat) : List (String × Nat) :=
  if d.any (fun e => e.1 == k) then
    d.map (fun e => if e.1 == k then (k, v) else e)
  else d ++ [(k, v)]

def header_index_aux : List String → Nat → List (String × Nat) → List (String × Nat)
  | [], _, acc => acc
  | h :: t, i, acc => header_index_aux t (i + 1) (dictInsert acc h i)

/-- `header_index = {h: i for i, h in enumerate(headers)}`: each distinct
header name mapped to its **last** 0-based position. -/
def header_index (headers : List String) : List (String × Nat) :=
  header_index_aux headers 0 []

/-- Lookup in an assoc list with `Nat` values (`mapping.get(k)`). -/
def mapLookup (m : List (String × Nat)) (k : String) : Option Nat :=
  (m.find? (fun e => e.1 == k)).map (fun e => e.2)

/-- `read_existing_codes(ws, code_idx)` (lines 210–216): the trimmed,
non-blank values of the code column below the header row.  (Python builds a
`set`; only membership is ever used, so a list models it.) -/
def read_existing_codes (g : Grid) (code_idx : Nat) : List String :=
  ((col_values g code_idx).drop 1).filterMap
    (fun v => if !(v == "") && !(pyStrip v == "") then some (pyStrip v) else none)

/-- The loop of `read_code_to_row_map` (lines 219–230): enumerate the code
column below the header starting at row number 2; first occurrence of a
non-blank trimmed code wins. -/
def build_code_map : List String → Nat → List (String × Nat) → List (String × Nat)
  | [], _, acc => acc
  | v :: rest, i, acc =>
      let code := pyStrip v
      let acc' :=
        if !(code == "") && ((acc.find? (fun e => e.1 == code)).isNone) then
          acc ++ [(code, i)]
        else acc
      build_code_map rest (i + 1) acc'

/-- `read_code_to_row_map(ws, code_idx)`: trimmed code → 1-based row number. -/
def read_code_to_row_map (g : Grid) (code_idx : Nat) : List (String × Nat) :=
  build_code_map ((col_values g code_idx).drop 1) 2 []

/-- The overlay loop `for h, idx in header_index.items(): if h in prod:
row[idx] = prod[h]` (lines 439–441 and 544–546). -/
def overlay (hidx : List (String × Nat)) (prod : List (String × String))
    (row : List String) : List String :=
  hidx.foldl (fun r e =>
    match pyGetS prod e.1 with
    | some v => r.set e.2 v
    | none => r) row

/-- Pad a row with empty cells up to `n` cells (lines 540–541; a no-op when
the row is already at least that long). -/
def padTo (l : List String) (n : Nat) : List String :=
  l ++ List.replicate (n - l.length) ""

/-! ### Create-sync (`sync_today_products_to_sheet`, lines 427–456) -/

/-- Lines 437–442: a fresh row of header width holding the product's fields. -/
def build_row (headers : List String) (prod : List (String × String)) : List String :=
  overlay (header_index headers) prod (List.replicate headers.length "")

/-- The selection loop of lines 430–442: skip an empty code, skip a code
already present, otherwise build the row to append. -/
def select_new_rows (headers : List String) (existing : List String)
    (prods : List (List (String × String))) : List (List String) :=
  prods.filterMap (fun prod =>
    let code := (pyGetS prod "Code").getD ""
    if code = "" then none
    else if code ∈ existing then none
    else some (build_row headers prod))

/-- Lines 444–450: write the selected rows as one block starting at
`first_empty_row`; the reported count is the number of appended rows. -/
def append_today_rows (g : Grid) (headers : List String)
    (rows : List (List String)) : Grid × Nat :=
  if rows.isEmpty then (g, 0)
  else (write_block g (first_empty_row g) rows, rows.length)

/-! ### Update-sync (`sync_updated_products_to_sheet`, lines 505–551) -/

/-- The row value written back for one matched product (lines 538–546): read
the current row, pad it to header width, overwrite the columns named in the
normalized record. -/
def updated_row_vals (headers : List String) (hidx : List (String × Nat))
    (prod : List (String × String)) (g : Grid) (r : Nat) : List String :=
  overlay hidx prod (padTo (row_values g r) headers.length)

/-- The per-product loop of lines 526–551 over already-normalized products:
skip an empty code, count a code missing from the map as `skipped_not_found`,
otherwise overwrite the matched row and count it as `rows_updated`.
Returns (grid, rows_updated, skipped_not_found). -/
def sync_updated_rows (headers : List String) (hidx : List (String × Nat))
    (codeMap : List (String × Nat)) :
    Grid → List (List (String × String)) → Grid × Nat × Nat
  | g, [] => (g, 0, 0)
  | g, prod :: rest =>
      let code := (pyGetS prod "Code").getD ""
      if code = "" then sync_updated_rows headers hidx codeMap g rest
      else
        match mapLookup codeMap code with
        | none =>
            let res := sync_updated_rows headers hidx codeMap g rest
            (res.1, res.2.1, res.2.2 + 1)
        | some r =>
            let g1 := update_row g r (updated_row_vals headers hidx prod g r)
            let res := sync_updated_rows headers hidx codeMap g1 rest
            (res.1, res.2.1 + 1, res.2.2)

/-- The whole sheet phase of `sync_updated_products_to_sheet` (lines
505–551), starting from the normalized updated-today products: repair the
header, index it, build the code→row map, then run the per-product loop.
(`header_index["Code"]` cannot fail because `ensure_header` guarantees the
`Code` column; the `getD 0` default is unreachable.) -/
def sync_updated_apply (g : Grid) (prods : List (List (String × String))) :
    Grid × Nat × Nat :=
  let res := ensure_header_grid g
  let hidx := header_index res.2
  let codeIdx := (mapLookup hidx "Code").getD 0 + 1
  let codeMap := read_code_to_row_map res.1 codeIdx
  sync_updated_rows res.2 hidx codeMap res.1 prods

/-- End-to-end update-sync on raw fetched records: filter by the today
window, normalize, reconcile.  (The code normalizes inside the write loop;
when every normalization succeeds — the only case any theorem below uses —
this staging is equivalent.) -/
def sync_updated_products_to_sheet (g : Grid) (start_iso end_iso : String)
    (items : List PVal) : Option (Grid × Nat × Nat) := do
  let raws ← filter_updated_today start_iso end_iso items
  let prods ← raws.mapM normalize_product_full_for_sheet
  pure (sync_updated_apply g prods)

/-! ## Concrete fixtures used by witnesses and counterexamples -/

/-- A minimal raw product record for the paginator stub. -/
def stubProd (i : Nat) : PVal :=
  .dict [("ItemID", .str (toString i)), ("Code", .str ("P" ++ toString i))]

/-- A stub catalog source returning pages of [2 items, 2 items, 0 items]. -/
def stubPages : Nat → PageResp := fun i =>
  if i = 1 then
    ⟨200, "", .ok (.dict [("Products", .dict [("Product", .list [stubProd 1, stubProd 2])])])⟩
  else if i = 2 then
    ⟨200, "", .ok (.dict [("Products", .dict [("Product", .list [stubProd 3, stubProd 4])])])⟩
  else ⟨200, "<Products/>", .ok (.dict [("Products", PVal.null)])⟩

/-- The per-page record lists of `stubPages`. -/
def stubItems : Nat → List PVal := fun i =>
  if i = 1 then [stubProd 1, stubProd 2]
  else if i = 2 then [stubProd 3, stubProd 4]
  else []

/-- A source whose first page is OK HTTP but unparseable XML. -/
def badXmlPages : Nat → PageResp := fun _ =>
  ⟨200, "this is not xml", .error "ExpatError: syntax error: line 1, column 0"⟩

/-- A source answering 401 on every page. -/
def page401 : Nat → PageResp := fun _ => ⟨401, "denied", .error "ExpatError"⟩

/-- A source answering 500 with a multi-line body on every page. -/
def page500 : Nat → PageResp := fun _ =>
  ⟨500, "Server\nError body", .ok (.dict [])⟩

/-- A source whose response root carries an explicit `Error` node. -/
def pageErrNode : Nat → PageResp := fun _ =>
  ⟨200, "", .ok (.dict [("Error", .dict [("Code", .str "123"), ("Message", .str "Bad token")])])⟩

/-- A raw updated-today product whose mirror row is already identical. -/
def c1item : PVal :=
  .dict [("ItemID", .str "1"), ("Code", .str "C1"),
         ("TimeStamps", .dict [("Created", .str "2025-01-01T10:00:00Z"),
                               ("Updated", .str "2025-10-12T10:00:00Z")])]

/-- The mirror row holding exactly the normalized values of `c1item`. -/
def c1row : List String :=
  ["1", "C1", "", "", "", "", "", "", "", "", "", "", "", "", "", "", "", "",
   "", "", "", "", "", "", "", "", "", "", "", "", "",
   "2025-01-01T10:00:00Z", "2025-10-12T10:00:00Z"]

/-- A mirror already holding `c1item`'s row under the full schema header. -/
def c1grid : Grid := [PRODUCT_COLUMNS, c1row]

def c1start : String := "2025-10-11T21:00:00Z"
def c1end : String := "2025-10-12T21:00:00Z"

/-- A sheet whose column A stops at the header while the key column `Code`
(column 2) has content down to row 2. -/
def c9grid : Grid := [["X", "Code"], ["", "C1"]]

/-- Two suppliers: the first's flag only matches after stripping, the
second's matches exactly. -/
def c5sup1 : PVal := .dict [("IsDefault", .str " true"), ("SupplierName", .str "A")]
def c5sup2 : PVal := .dict [("IsDefault", .str "true"), ("SupplierName", .str "B")]

/-- A record carrying both suppliers of the C5 counterexample. -/
def c5item : PVal :=
  .dict [("Code", .str "C5"),
         ("Suppliers", .dict [("Supplier", .list [c5sup1, c5sup2])])]

/-- A well-formed raw record exercising nested nodes and supplier pick. -/
def c6item : PVal :=
  .dict [("ItemID", .str " 7 "), ("Name", .str "Widget"),
         ("Unit", .dict [("UnitID", .str "2"), ("UnitName", PVal.null)]),
         ("Inventory", PVal.null),
         ("Suppliers", .dict [("Supplier",
            .list [.dict [("IsDefault", .str "TRUE"), ("SupplierName", .str " Acme ")]])])]

/-- A page that neither fails nor ends the catalog: OK status and a parse
yielding at least one record. -/
def goodPage (pages : Nat → PageResp) (its : Nat → List PVal) (i : Nat) : Prop :=
  (pages i).status ≠ 401 ∧ (pages i).status < 400 ∧
    parse_products_xml (pages i).text (pages i).parsed = .ok (its i) ∧ its i ≠ []

/-! ## Helper lemmas: stripping and trailing-empty removal -/

lemma dropWhile_idem {α : Type _} (p : α → Bool) :
    ∀ l : List α, (l.dropWhile p).dropWhile p = l.dropWhile p
  | [] => rfl
  | a :: t => by
      by_cases h : p a
      · simp only [List.dropWhile_cons, h, if_true]
        exact dropWhile_idem p t
      · simp [List.dropWhile_cons, h]

lemma dropWhile_head_false {α : Type _} {p : α → Bool} :
    ∀ {l : List α} {h : α} {t : List α}, l.dropWhile p = h :: t → p h = false
  | [], h, t => by simp [List.dropWhile]
  | a :: l, h, t => by
      by_cases ha : p a
      · simp only [List.dropWhile_cons, ha, if_true]
        exact dropWhile_head_false
      · simp only [List.dropWhile_cons, ha, if_false]
        rintro ⟨rfl, rfl⟩
        simpa using ha

lemma data_mk (l : List Char) : (String.mk l).data = l := rfl

lemma pyStrip_idem (s : String) : pyStrip (pyStrip s) = pyStrip s := by
  unfold pyStrip
  rw [data_mk]
  set A := s.data.dropWhile pyWS with hA
  set Z := A.reverse.dropWhile pyWS with hZ
  have h1 : Z.reverse.reverse.dropWhile pyWS = Z := by
    rw [List.reverse_reverse, hZ, dropWhile_idem]
  have h2 : Z.reverse.dropWhile pyWS = Z.reverse := by
    cases hzr : Z.reverse with
    | nil => simp
    | cons h t =>
        have hAeq : A = h :: (t ++ (A.reverse.takeWhile pyWS).reverse) := by
          have := List.takeWhile_append_dropWhile (p := pyWS) (l := A.reverse)
          calc A = A.reverse.reverse := (List.reverse_reverse A).symm
            _ = (A.reverse.takeWhile pyWS ++ Z).reverse := by rw [hZ, this]
            _ = Z.reverse ++ (A.reverse.takeWhile pyWS).reverse := by
                  rw [List.reverse_append]
            _ = h :: (t ++ (A.reverse.takeWhile pyWS).reverse) := by rw [hzr]; rfl
        have hh : pyWS h = false := by
          have hd : s.data.dropWhile pyWS
              = h :: (t ++ (A.reverse.takeWhile pyWS).reverse) := by
            rw [← hA]; exact hAeq
          exact dropWhile_head_false hd
        simp [List.dropWhile_cons, hh]
  rw [h2, h1]

lemma pyStrip_empty : pyStrip "" = "" := rfl

/-- Decompose a list into its trailing-empty-trimmed prefix and an all-empty
tail. -/
lemma dropTrailingEmpty_spec (l : List String) :
    ∃ t, l = dropTrailingEmpty l ++ t ∧ ∀ x ∈ t, x = "" := by
  refine ⟨(l.reverse.takeWhile (fun v => v == "")).reverse, ?_, ?_⟩
  · conv_lhs => rw [← List.reverse_reverse l,
      ← List.takeWhile_append_dropWhile (p := fun v => v == "") (l := l.reverse)]
    rw [List.reverse_append]
    rfl
  · intro x hx
    rw [List.mem_reverse] at hx
    have := List.mem_takeWhile_imp hx
    simpa using this

lemma dropWhile_append_of_all {α : Type _} {p : α → Bool} :
    ∀ (a b : List α), (∀ x ∈ a, p x = true) →
      (a ++ b).dropWhile p = b.dropWhile p
  | [], b, _ => rfl
  | x :: a, b, h => by
      have hx : p x = true := h x (by simp)
      simp only [List.cons_append, List.dropWhile_cons, hx, if_true]
      exact dropWhile_append_of_all a b (fun y hy => h y (by simp [hy]))

lemma dropTrailingEmpty_append_empties (l t : List String)
    (ht : ∀ x ∈ t, x = "") :
    dropTrailingEmpty (l ++ t) = dropTrailingEmpty l := by
  unfold dropTrailingEmpty
  rw [List.reverse_append, dropWhile_append_of_all]
  intro x hx
  rw [List.mem_reverse] at hx
  simp [ht x hx]

lemma dropTrailingEmpty_eq_self_of_last (l : List String) (x : String)
    (hl : l.getLast? = some x) (hx : x ≠ "") :
    dropTrailingEmpty l = l := by
  unfold dropTrailingEmpty
  rw [List.getLast?_eq_head?_reverse] at hl
  cases hr : l.reverse with
  | nil =>
      have : l = [] := List.reverse_eq_nil_iff.mp hr
      simp [this]
  | cons h t =>
      rw [hr] at hl
      simp only [List.head?_cons, Option.some.injEq] at hl
      have hx0 : (h == "") = false := by simp [hl, hx]
      have hstep : List.dropWhile (fun v => v == "") (h :: t) = h :: t := by
        simp [List.dropWhile_cons, hx0]
      rw [hstep, ← hr, List.reverse_reverse]

lemma dropTrailingEmpty_length_le (l : List String) :
    (dropTrailingEmpty l).length ≤ l.length := by
  obtain ⟨t, hl, -⟩ := dropTrailingEmpty_spec l
  conv_rhs => rw [hl]
  simp

/-- Dropping trailing empties and padding back with empties never changes
any cell (out-of-range cells being empty). -/
lemma getD_padTo_dropTrailing (l : List String) (n j : Nat) :
    (padTo (dropTrailingEmpty l) n).getD j "" = l.getD j "" := by
  obtain ⟨t, hl, ht⟩ := dropTrailingEmpty_spec l
  set D := dropTrailingEmpty l with hD
  rw [padTo]
  conv_rhs => rw [hl]
  rcases lt_or_ge j D.length with hj | hj
  · rw [List.getD_eq_getElem?_getD, List.getD_eq_getElem?_getD,
      List.getElem?_append_left hj, List.getElem?_append_left hj]
  · rw [List.getD_eq_getElem?_getD, List.getD_eq_getElem?_getD,
      List.getElem?_append_right hj, List.getElem?_append_right hj]
    rcases hrep : (List.replicate (n - D.length) "")[j - D.length]? with _ | x
    · rcases htl : t[j - D.length]? with _ | y
      · simp
      · have hy := ht y (List.getElem?_mem htl)
        simp [htl, hy]
    · have hx : x = "" := List.eq_of_mem_replicate (List.getElem?_mem hrep)
      rcases htl : t[j - D.length]? with _ | y
      · simp [hrep, hx]
      · have hy := ht y (List.getElem?_mem htl)
        simp [hrep, htl, hx, hy]

lemma padTo_length (l : List String) (n : Nat) :
    (padTo l n).length = max n l.length := by
  simp [padTo]
  omega

lemma padTo_dropTrailing_eq_self (l : List String) (n : Nat)
    (h : l.length = n) : padTo (dropTrailingEmpty l) n = l := by
  have hlen : (padTo (dropTrailingEmpty l) n).length = n := by
    rw [padTo_length]
    have := dropTrailingEmpty_length_le l
    omega
  apply List.ext_getElem?
  intro j
  rcases lt_or_ge j n with hj | hj
  · have h1 : (padTo (dropTrailingEmpty l) n)[j]? =
        some ((padTo (dropTrailingEmpty l) n).getD j "") := by
      rw [List.getD_eq_getElem?_getD, List.getElem?_eq_getElem (by omega)]
      rfl
    have h2 : l[j]? = some (l.getD j "") := by
      rw [List.getD_eq_getElem?_getD, List.getElem?_eq_getElem (by omega)]
      rfl
    rw [h1, h2, getD_padTo_dropTrailing]
  · rw [List.getElem?_eq_none (by omega), List.getElem?_eq_none (by omega)]

/-! ## Helper lemmas: `ensure_header` -/

/-- The header-repair step only ever appends to the accumulated header. -/
lemma ensure_foldl_prefix :
    ∀ (cols acc : List String),
      ∃ t, cols.foldl (fun hs col => if col ∈ hs then hs else hs ++ [col]) acc
            = acc ++ t ∧ ∀ x ∈ t, x ∈ cols
  | [], acc => ⟨[], by simp⟩
  | c :: cols, acc => by
      by_cases h : c ∈ acc
      · obtain ⟨t, ht, hmem⟩ := ensure_foldl_prefix cols acc
        exact ⟨t, by simpa [h] using ht, fun x hx => by simp [hmem x hx]⟩
      · obtain ⟨t, ht, hmem⟩ := ensure_foldl_prefix cols (acc ++ [c])
        refine ⟨c :: t, ?_, ?_⟩
        · simpa [h] using ht
        · intro x hx
          rcases List.mem_cons.1 hx with rfl | hx
          · simp
          · simp [hmem x hx]

lemma ensure_foldl_sub (cols : List String) :
    ∀ (acc : List String) (x : String), x ∈ acc →
      x ∈ cols.foldl (fun hs col => if col ∈ hs then hs else hs ++ [col]) acc := by
  intro acc x hx
  obtain ⟨t, ht, -⟩ := ensure_foldl_prefix cols acc
  rw [ht]
  exact List.mem_append.2 (Or.inl hx)

lemma ensure_foldl_mem :
    ∀ (cols acc : List String) (c : String), c ∈ cols →
      c ∈ cols.foldl (fun hs col => if col ∈ hs then hs else hs ++ [col]) acc
  | [], acc, c, hc => by simp at hc
  | c0 :: cols, acc, c, hc => by
      rcases List.mem_cons.1 hc with rfl | hc
      · by_cases h : c ∈ acc
        · simp only [List.foldl_cons, h, if_true]
          exact ensure_foldl_sub cols acc c h
        · simp only [List.foldl_cons, h, if_false]
          exact ensure_foldl_sub cols (acc ++ [c]) c (by simp)
      · by_cases h : c0 ∈ acc <;> simp only [List.foldl_cons, h, if_true, if_false]
        · exact ensure_foldl_mem cols acc c hc
        · exact ensure_foldl_mem cols (acc ++ [c0]) c hc

lemma ensure_foldl_noop :
    ∀ (cols acc : List String), (∀ c ∈ cols, c ∈ acc) →
      cols.foldl (fun hs col => if col ∈ hs then hs else hs ++ [col]) acc = acc
  | [], acc, _ => rfl
  | c :: cols, acc, h => by
      have hc : c ∈ acc := h c (by simp)
      simp only [List.foldl_cons, hc, if_true]
      exact ensure_foldl_noop cols acc (fun x hx => h x (by simp [hx]))

lemma mem_ensure_header_list (headers : List String) (c : String)
    (hc : c ∈ PRODUCT_COLUMNS) : c ∈ ensure_header_list headers := by
  unfold ensure_header_list
  by_cases h : headers.isEmpty
  · simpa [h]
  · simpa [h] using ensure_foldl_mem PRODUCT_COLUMNS headers c hc

lemma ensure_header_list_idem (headers : List String)
    (h : ∀ c ∈ PRODUCT_COLUMNS, c ∈ headers) (hne : ¬headers.isEmpty) :
    ensure_header_list headers = headers := by
  unfold ensure_header_list
  simp only [hne, if_false]
  exact ensure_foldl_noop PRODUCT_COLUMNS headers h

/-! ## Helper lemmas: Python-value basics -/

lemma pyOrDict_dict (d : List (String × PVal)) : pyOrDict (.dict d) = .dict d := by
  cases d <;> simp [pyOrDict, pyTruthy]

lemma pyGet_dict (d : List (String × PVal)) (k : String) :
    pyGet (.dict d) k = some (dval d k) := rfl

/-! ## Helper lemmas: paginator -/

lemma fetch_loop_step_good (pages : Nat → PageResp) (its : Nat → List PVal)
    (fuel page : Nat) (acc : List PVal) (dbg : List String)
    (h : goodPage pages its page) :
    fetch_loop pages (fuel + 1) page acc dbg =
      fetch_loop pages fuel (page + 1) (acc ++ its page) (dbg ++ [dbgLine pages page]) := by
  obtain ⟨h401, h400, hparse, hne⟩ := h
  have e401 : ((pages page).status == 401) = false := by simpa using h401
  have e400 : (400 ≤ (pages page).status) = False := eq_false (by omega)
  have hie : (its page).isEmpty = false := by
    cases hi : its page with
    | nil => exact absurd hi hne
    | cons a l => rfl
  conv_lhs => rw [fetch_loop]
  simp only [e401, Bool.false_eq_true, if_false, e400, hparse, hie]

/-- Advance the loop across a block of good pages. -/
lemma fetch_loop_run_good (pages : Nat → PageResp) (its : Nat → List PVal) :
    ∀ (fuel page n : Nat) (acc : List PVal) (dbg : List String),
      page ≤ n → n ≤ page + fuel →
      (∀ i, page ≤ i → i < n → goodPage pages its i) →
      fetch_loop pages fuel page acc dbg =
        fetch_loop pages (fuel - (n - page)) n
          (acc ++ (List.range' page (n - page)).flatMap its)
          (dbg ++ (List.range' page (n - page)).map (dbgLine pages)) := by
  intro fuel
  induction fuel with
  | zero =>
      intro page n acc dbg h1 h2 hgood
      have hn : n = page := by omega
      subst hn
      simp
  | succ fuel ih =>
      intro page n acc dbg h1 h2 hgood
      rcases eq_or_lt_of_le h1 with rfl | hlt
      · simp
      · have hg : goodPage pages its page := hgood page le_rfl hlt
        rw [fetch_loop_step_good pages its fuel page acc dbg hg]
        rw [ih (page + 1) n (acc ++ its page) (dbg ++ [dbgLine pages page])
          (by omega) (by omega) (fun i hi1 hi2 => hgood i (by omega) hi2)]
        have hrange : List.range' page (n - page) =
            page :: List.range' (page + 1) (n - (page + 1)) := by
          have : n - page = (n - (page + 1)) + 1 := by omega
          rw [this, List.range'_succ]
        rw [hrange]
        have hfuel : fuel - (n - (page + 1)) = fuel + 1 - (n - page) := by omega
        simp [hfuel]

/-- A good block followed by an empty page ends the loop successfully with
the concatenated records and one debug line per fetched page. -/
lemma fetch_loop_success (pages : Nat → PageResp) (its : Nat → List PVal)
    (max_pages n : Nat) (h1 : 1 ≤ n) (h2 : n ≤ max_pages)
    (hgood : ∀ i, 1 ≤ i → i < n → goodPage pages its i)
    (hn401 : (pages n).status ≠ 401) (hn400 : (pages n).status < 400)
    (hparse : parse_products_xml (pages n).text (pages n).parsed = .ok (its n))
    (hempty : its n = []) :
    fetch_all_products pages max_pages =
      .success ((List.range' 1 (n - 1)).flatMap its)
        ((List.range' 1 n).map (dbgLine pages)) := by
  unfold fetch_all_products
  rw [fetch_loop_run_good pages its max_pages 1 n [] [] h1 (by omega) hgood]
  have hfuel : max_pages - (n - 1) = (max_pages - n) + 1 := by omega
  rw [hfuel]
  unfold fetch_loop
  have e401 : ((pages n).status == 401) = false := by simpa using hn401
  have e400 : ¬(400 ≤ (pages n).status) := by omega
  simp only [e401, Bool.false_eq_true, if_false, e400, hparse, hempty,
    List.isEmpty_nil, if_true, List.nil_append]
  have hrange : List.range' 1 n = List.range' 1 (n - 1) ++ [n] := by
    have hn : n - 1 + 1 = n := by omega
    calc List.range' 1 n = List.range' 1 ((n - 1) + 1) := by rw [hn]
      _ = List.range' 1 (n - 1) ++ [1 + (n - 1)] := List.range'_1_concat 1 (n - 1)
      _ = List.range' 1 (n - 1) ++ [n] := by rw [show 1 + (n - 1) = n by omega]
  rw [hrange]
  simp

/-- Running off the page ceiling with only good pages: success with
everything accumulated. -/
lemma fetch_loop_ceiling (pages : Nat → PageResp) (its : Nat → List PVal)
    (max_pages : Nat)
    (hgood : ∀ i, 1 ≤ i → i ≤ max_pages → goodPage pages its i) :
    fetch_all_products pages max_pages =
      .success ((List.range' 1 max_pages).flatMap its)
        ((List.range' 1 max_pages).map (dbgLine pages)) := by
  unfold fetch_all_products
  rw [fetch_loop_run_good pages its max_pages 1 (max_pages + 1) [] []
    (by omega) (by omega) (fun i hi1 hi2 => hgood i hi1 (by omega))]
  have h1 : max_pages + 1 - 1 = max_pages := by omega
  rw [h1]
  simp [fetch_loop]

/-- Splitting the last debug line off a block of page-fetch debug lines. -/
lemma range_one_concat (pages : Nat → PageResp) (k : Nat) (h1 : 1 ≤ k) :
    (List.range' 1 (k - 1)).map (dbgLine pages) ++ [dbgLine pages k]
      = (List.range' 1 k).map (dbgLine pages) := by
  have hrange : List.range' 1 k = List.range' 1 (k - 1) ++ [k] := by
    have hn : k - 1 + 1 = k := by omega
    calc List.range' 1 k = List.range' 1 ((k - 1) + 1) := by rw [hn]
      _ = List.range' 1 (k - 1) ++ [1 + (k - 1)] := List.range'_1_concat 1 (k - 1)
      _ = List.range' 1 (k - 1) ++ [k] := by rw [show 1 + (k - 1) = k by omega]
  rw [hrange, List.map_append]
  rfl

/-- After a good block, a 401 page aborts with the unauthorized marker. -/
lemma fetch_loop_fail_401 (pages : Nat → PageResp) (its : Nat → List PVal)
    (max_pages k : Nat) (h1 : 1 ≤ k) (h2 : k ≤ max_pages)
    (hgood : ∀ i, 1 ≤ i → i < k → goodPage pages its i)
    (hk : (pages k).status = 401) :
    fetch_all_products pages max_pages =
      .failure ((List.range' 1 k).map (dbgLine pages) ++ [unauthorizedMsg]) := by
  unfold fetch_all_products
  rw [fetch_loop_run_good pages its max_pages 1 k [] [] h1 (by omega) hgood]
  have hfuel : max_pages - (k - 1) = (max_pages - k) + 1 := by omega
  rw [hfuel]
  conv_lhs => rw [fetch_loop]
  have e401 : ((pages k).status == 401) = true := by simpa using hk
  simp only [e401, if_true, List.nil_append]
  rw [← range_one_concat pages k h1]

/-- After a good block, a non-401 error status aborts with the HTTP
diagnostic carrying the body snippet. -/
lemma fetch_loop_fail_http (pages : Nat → PageResp) (its : Nat → List PVal)
    (max_pages k : Nat) (h1 : 1 ≤ k) (h2 : k ≤ max_pages)
    (hgood : ∀ i, 1 ≤ i → i < k → goodPage pages its i)
    (hk401 : (pages k).status ≠ 401) (hk400 : 400 ≤ (pages k).status) :
    fetch_all_products pages max_pages =
      .failure ((List.range' 1 k).map (dbgLine pages) ++
        ["HTTP " ++ toString (pages k).status ++ " body_snippet=" ++
          body_snippet (pages k).text]) := by
  unfold fetch_all_products
  rw [fetch_loop_run_good pages its max_pages 1 k [] [] h1 (by omega) hgood]
  have hfuel : max_pages - (k - 1) = (max_pages - k) + 1 := by omega
  rw [hfuel]
  conv_lhs => rw [fetch_loop]
  have e401 : ((pages k).status == 401) = false := by simpa using hk401
  have e400 : (400 ≤ (pages k).status) = True := eq_true hk400
  simp only [e401, Bool.false_eq_true, if_false, e400, if_true, List.nil_append]
  rw [← range_one_concat pages k h1]

/-- After a good block, a page whose body fails to parse aborts with the
`PARSE_FAIL` diagnostic (exception text truncated to 300 characters). -/
lemma fetch_loop_fail_parse (pages : Nat → PageResp) (its : Nat → List PVal)
    (max_pages k : Nat) (e : String) (h1 : 1 ≤ k) (h2 : k ≤ max_pages)
    (hgood : ∀ i, 1 ≤ i → i < k → goodPage pages its i)
    (hk401 : (pages k).status ≠ 401) (hk400 : (pages k).status < 400)
    (hparse : parse_products_xml (pages k).text (pages k).parsed = .error e) :
    fetch_all_products pages max_pages =
      .failure ((List.range' 1 k).map (dbgLine pages) ++
        ["PARSE_FAIL " ++ strTake e 300]) := by
  unfold fetch_all_products
  rw [fetch_loop_run_good pages its max_pages 1 k [] [] h1 (by omega) hgood]
  have hfuel : max_pages - (k - 1) = (max_pages - k) + 1 := by omega
  rw [hfuel]
  conv_lhs => rw [fetch_loop]
  have e401 : ((pages k).status == 401) = false := by simpa using hk401
  have e400 : (400 ≤ (pages k).status) = False := eq_false (by omega)
  simp only [e401, Bool.false_eq_true, if_false, e400, hparse, List.nil_append]
  rw [← range_one_concat pages k h1]

/-- Every page up to the ceiling OK (status and parse) means the paginator
returns a success — failures happen only on a bad page. -/
lemma fetch_loop_all_ok_success (pages : Nat → PageResp) :
    ∀ (fuel page : Nat) (acc : List PVal) (dbg : List String),
      (∀ i, page ≤ i → i < page + fuel →
        (pages i).status ≠ 401 ∧ (pages i).status < 400 ∧
          ∃ its0, parse_products_xml (pages i).text (pages i).parsed = .ok its0) →
      (fetch_loop pages fuel page acc dbg).isSuccess = true := by
  intro fuel
  induction fuel with
  | zero => intro page acc dbg h; rfl
  | succ fuel ih =>
      intro page acc dbg h
      obtain ⟨h401, h400, its0, hparse⟩ := h page le_rfl (by omega)
      have e401 : ((pages page).status == 401) = false := by simpa using h401
      have e400 : (400 ≤ (pages page).status) = False := eq_false (by omega)
      conv_lhs => rw [fetch_loop]
      simp only [e401, Bool.false_eq_true, if_false, e400, hparse]
      by_cases hie : its0.isEmpty = true
      · simp [hie, FetchResult.isSuccess]
      · simp only [Bool.not_eq_true] at hie
        simp only [hie, Bool.false_eq_true, if_false]
        exact ih (page + 1) _ _ (fun i hi1 hi2 => h i (by omega) (by omega))

/-- The body snippet's length never exceeds 300 characters. -/
lemma body_snippet_le_300 (text : String) : (body_snippet text).length ≤ 300 := by
  show (String.mk ((text.data.take 300).map
    (fun c => if c == '\n' then ' ' else c))).length ≤ 300
  have : ∀ l : List Char, (String.mk l).length = l.length := fun l => rfl
  rw [this, List.length_map, List.length_take]
  omega

/-- The body snippet contains no newline character. -/
lemma body_snippet_no_newline (text : String) (c : Char)
    (hc : c ∈ (body_snippet text).data) : c ≠ '\n' := by
  have hc' : c ∈ (text.data.take 300).map (fun c => if c == '\n' then ' ' else c) := hc
  obtain ⟨c0, -, rfl⟩ := List.mem_map.1 hc'
  by_cases h : (c0 == '\n') = true
  · simp only [h, if_true]
    decide
  · simp only [h, Bool.false_eq_true, if_false]
    simpa using h

/-! ## Claim theorems -/

/-- **C10** — In both sync endpoints, the header-reconciliation step
(`ensure_header`) returns a header list containing every schema column, in
particular `"Code"`: an empty sheet is seeded with the full column list and a
non-empty header has every missing schema column appended.  Hence the error
branch `"Code" not in headers` after `ensure_header` is unreachable for every
sheet state. -/
theorem ensure_header_always_has_code :
    (∀ headers c, c ∈ PRODUCT_COLUMNS → c ∈ ensure_header_list headers)
    ∧ (∀ headers, "Code" ∈ ensure_header_list headers)
    ∧ (∀ g : Grid, "Code" ∈ (ensure_header_grid g).2) := by
  have h1 : ∀ headers c, c ∈ PRODUCT_COLUMNS → c ∈ ensure_header_list headers :=
    fun headers c hc => mem_ensure_header_list headers c hc
  have hcode : ("Code" : String) ∈ PRODUCT_COLUMNS := by decide
  refine ⟨h1, fun headers => h1 headers _ hcode, fun g => ?_⟩
  unfold ensure_header_grid
  by_cases h : (row_values g 1).isEmpty
  · simpa [h] using hcode
  · simp only [h, if_false]
    by_cases h2 : ensure_header_list (row_values g 1) = row_values g 1
    · simpa [h2] using h2 ▸ h1 (row_values g 1) _ hcode
    · simpa [h2] using h1 (row_values g 1) _ hcode

/-- Witness for `ensure_header_always_has_code` at concrete inputs: a header
missing `Code` and an empty sheet. -/
theorem ensure_header_always_has_code_witness :
    "Code" ∈ ensure_header_list ["Foo", "ItemID"]
    ∧ "Code" ∈ (ensure_header_grid ([] : Grid)).2 :=
  ⟨ensure_header_always_has_code.1 ["Foo", "ItemID"] "Code" (by decide),
   ensure_header_always_has_code.2.2 []⟩

/-- **C2 counterexample** — the today-window test of both sync endpoints
*includes* a timestamp equal to the end bound: the membership test
`start_iso <= t <= end_iso` accepts `t = end_iso`, while the claimed
half-open window `[start, end)` rejects it. -/
theorem window_end_bound_included :
    ts_in_window "2025-10-11T21:00:00Z" "2025-10-12T21:00:00Z" "Updated"
      (.dict [("TimeStamps", .dict [("Updated", .str "2025-10-12T21:00:00Z")])])
      = some true
    ∧ ¬ window_spec_halfopen "2025-10-11T21:00:00Z" "2025-10-12T21:00:00Z"
        "2025-10-12T21:00:00Z"
    ∧ (filter_updated_today "2025-10-11T21:00:00Z" "2025-10-12T21:00:00Z"
        [.dict [("TimeStamps", .dict [("Updated", .str "2025-10-12T21:00:00Z")])]]
        = some [.dict [("TimeStamps", .dict [("Updated", .str "2025-10-12T21:00:00Z")])]]) :=
  ⟨by decide, by decide, rfl⟩

/-- **C2 amended** — the today-window used to classify records is the
*closed* interval: for a record whose `TimeStamps` node holds a string
timestamp `t` under the queried key, the code's membership test succeeds and
returns `true` exactly when the stripped timestamp is non-empty and satisfies
`start <= t <= end` (both bounds included); a timestamp equal to the end
bound IS in the window. -/
theorem window_is_closed_interval (s e key : String)
    (pd tsd : List (String × PVal)) (t : String)
    (h1 : dval pd "TimeStamps" = PVal.dict tsd)
    (h2 : dval tsd key = PVal.str t) :
    ts_in_window s e key (PVal.dict pd) = some true
      ↔ window_spec_closed s e (pyStrip t) := by
  unfold ts_in_window
  rw [pyGet_dict, h1]
  simp only [Option.bind_eq_bind, Option.some_bind, pyOrDict_dict, pyGet_dict, h2]
  unfold pyOrEmptyStrip window_spec_closed
  simp only [Option.some_bind, Option.pure_def, Option.some.injEq, Bool.and_eq_true,
    Bool.not_eq_true', beq_eq_false_iff_ne]
  tauto

/-- Witness for `window_is_closed_interval`: the end bound itself is
accepted by the code's window test. -/
theorem window_is_closed_interval_witness :
    ts_in_window "2025-10-11T21:00:00Z" "2025-10-12T21:00:00Z" "Updated"
      (PVal.dict [("TimeStamps", PVal.dict [("Updated", PVal.str "2025-10-12T21:00:00Z")])])
      = some true :=
  (window_is_closed_interval "2025-10-11T21:00:00Z" "2025-10-12T21:00:00Z"
      "Updated" [("TimeStamps", PVal.dict [("Updated", PVal.str "2025-10-12T21:00:00Z")])]
      [("Updated", PVal.str "2025-10-12T21:00:00Z")] "2025-10-12T21:00:00Z"
      rfl rfl).mpr (by decide)

/-- **C3** — The paginator requests pages 1, 2, 3, … and stops at the first
page parsing to zero records, returning as success the concatenation of the
preceding pages' records in fetch order (one debug line per page fetched);
with no empty page it stops at the `max_pages` ceiling with everything
accumulated; on the stub source returning pages of [2, 2, 0] records it
performs exactly 3 page fetches and returns exactly 4 records. -/
theorem paginator_stops_on_first_empty_page :
    (∀ (pages : Nat → PageResp) (its : Nat → List PVal) (n max_pages : Nat),
        1 ≤ n → n ≤ max_pages →
        (∀ i, 1 ≤ i → i < n → goodPage pages its i) →
        (pages n).status ≠ 401 → (pages n).status < 400 →
        parse_products_xml (pages n).text (pages n).parsed = .ok (its n) →
        its n = [] →
        fetch_all_products pages max_pages =
          .success ((List.range' 1 (n - 1)).flatMap its)
            ((List.range' 1 n).map (dbgLine pages)))
    ∧ (∀ (pages : Nat → PageResp) (its : Nat → List PVal) (max_pages : Nat),
        (∀ i, 1 ≤ i → i ≤ max_pages → goodPage pages its i) →
        fetch_all_products pages max_pages =
          .success ((List.range' 1 max_pages).flatMap its)
            ((List.range' 1 max_pages).map (dbgLine pages)))
    ∧ fetch_all_products stubPages 500 =
        .success [stubProd 1, stubProd 2, stubProd 3, stubProd 4]
          ["page=1 status=200", "page=2 status=200", "page=3 status=200"] :=
  ⟨fun pages its n max_pages h1 h2 hgood hn1 hn2 hn3 hn4 =>
      fetch_loop_success pages its max_pages n h1 h2 hgood hn1 hn2 hn3 hn4,
   fun pages its max_pages hgood => fetch_loop_ceiling pages its max_pages hgood,
   rfl⟩

/-- Witness for `paginator_stops_on_first_empty_page` applied to the stub
source: pages [2 items, 2 items, 0 items] → 3 fetches, 4 records. -/
theorem paginator_stops_on_first_empty_page_witness :
    fetch_all_products stubPages 500 =
      .success ((List.range' 1 2).flatMap stubItems)
        ((List.range' 1 3).map (dbgLine stubPages)) :=
  paginator_stops_on_first_empty_page.1 stubPages stubItems 3 500 (by decide) (by decide)
    (by
      intro i h1 h2
      interval_cases i
      · exact ⟨by decide, by decide, rfl, by simp [stubItems]⟩
      · exact ⟨by decide, by decide, rfl, by simp [stubItems]⟩)
    (by decide) (by decide) rfl (by simp [stubItems])

/-- **C4 counterexample** — the paginator's failure cases are *not* limited
to {401, other ≥400 status, explicit error node}: a page with an OK status
whose body is unparseable XML (no root at all, hence no error node) also
aborts with a parse failure. -/
theorem paginator_fails_on_malformed_xml :
    fetch_all_products badXmlPages 500 =
      .failure ["page=1 status=200",
        "PARSE_FAIL XML_PARSE_ERROR: ExpatError: syntax error: line 1, column 0"]
    ∧ (badXmlPages 1).status ≠ 401 ∧ (badXmlPages 1).status < 400
    ∧ (∀ d, (badXmlPages 1).parsed ≠ .ok d) := by
  refine ⟨rfl, by decide, by decide, ?_⟩
  intro d h
  simp [badXmlPages] at h

/-- **C4 amended** — the paginator returns a failure (debug lines only, no
records) exactly when a page fails, checked per page in this order:
(1) status 401 → the unauthorized diagnostic;
(2) any other status ≥ 400 → a diagnostic with a body snippet of at most 300
characters and no newline;
(3) a root carrying an explicit `Error` mapping and no `Products` node → a
parse failure joining the error node's key/value pairs;
(4) any other parse failure (malformed XML, or a root lacking both nodes) →
a `PARSE_FAIL` diagnostic with the exception text truncated to 300
characters.  When every page up to the ceiling has an OK status and parses,
the result is a success (so no other failure case exists). -/
theorem paginator_failure_cases :
    (∀ (pages : Nat → PageResp) (its : Nat → List PVal) (max_pages k : Nat),
        1 ≤ k → k ≤ max_pages → (∀ i, 1 ≤ i → i < k → goodPage pages its i) →
        (pages k).status = 401 →
        fetch_all_products pages max_pages =
          .failure ((List.range' 1 k).map (dbgLine pages) ++ [unauthorizedMsg]))
    ∧ (∀ (pages : Nat → PageResp) (its : Nat → List PVal) (max_pages k : Nat),
        1 ≤ k → k ≤ max_pages → (∀ i, 1 ≤ i → i < k → goodPage pages its i) →
        (pages k).status ≠ 401 → 400 ≤ (pages k).status →
        fetch_all_products pages max_pages =
          .failure ((List.range' 1 k).map (dbgLine pages) ++
            ["HTTP " ++ toString (pages k).status ++ " body_snippet=" ++
              body_snippet (pages k).text]))
    ∧ (∀ text, (body_snippet text).length ≤ 300
        ∧ ∀ c ∈ (body_snippet text).data, c ≠ '\n')
    ∧ (∀ (pages : Nat → PageResp) (its : Nat → List PVal) (max_pages k : Nat)
          (d ed : List (String × PVal)),
        1 ≤ k → k ≤ max_pages → (∀ i, 1 ≤ i → i < k → goodPage pages its i) →
        (pages k).status ≠ 401 → (pages k).status < 400 →
        (pages k).parsed = .ok (.dict d) →
        (d.find? (fun e => e.1 == "Products")) = none →
        (d.find? (fun e => e.1 == "Error")).map (fun e => e.2) = some (.dict ed) →
        fetch_all_products pages max_pages =
          .failure ((List.range' 1 k).map (dbgLine pages) ++
            ["PARSE_FAIL " ++ strTake ("NO_PRODUCTS_NODE: " ++ joinError ed) 300]))
    ∧ (∀ (pages : Nat → PageResp) (its : Nat → List PVal) (max_pages k : Nat)
          (e : String),
        1 ≤ k → k ≤ max_pages → (∀ i, 1 ≤ i → i < k → goodPage pages its i) →
        (pages k).status ≠ 401 → (pages k).status < 400 →
        parse_products_xml (pages k).text (pages k).parsed = .error e →
        fetch_all_products pages max_pages =
          .failure ((List.range' 1 k).map (dbgLine pages) ++
            ["PARSE_FAIL " ++ strTake e 300]))
    ∧ (∀ (pages : Nat → PageResp) (max_pages : Nat),
        (∀ i, 1 ≤ i → i ≤ max_pages →
          (pages i).status ≠ 401 ∧ (pages i).status < 400 ∧
            ∃ its0, parse_products_xml (pages i).text (pages i).parsed = .ok its0) →
        (fetch_all_products pages max_pages).isSuccess = true) := by
  refine ⟨?_, ?_, ?_, ?_, ?_, ?_⟩
  · exact fun pages its max_pages k h1 h2 hg hk =>
      fetch_loop_fail_401 pages its max_pages k h1 h2 hg hk
  · exact fun pages its max_pages k h1 h2 hg hk1 hk2 =>
      fetch_loop_fail_http pages its max_pages k h1 h2 hg hk1 hk2
  · exact fun text => ⟨body_snippet_le_300 text,
      fun c hc => body_snippet_no_newline text c hc⟩
  · intro pages its max_pages k d ed h1 h2 hg hk1 hk2 hok hprod herr
    apply fetch_loop_fail_parse pages its max_pages k
      ("NO_PRODUCTS_NODE: " ++ joinError ed) h1 h2 hg hk1 hk2
    rw [hok]
    unfold parse_products_xml
    have hd : pyOrDict (.dict d) = .dict d := pyOrDict_dict d
    simp only [hd, dictFind, hprod, Option.map_none', herr]
  · exact fun pages its max_pages k e h1 h2 hg hk1 hk2 hp =>
      fetch_loop_fail_parse pages its max_pages k e h1 h2 hg hk1 hk2 hp
  · intro pages max_pages h
    exact fetch_loop_all_ok_success pages max_pages 1 [] []
      (fun i hi1 hi2 => h i hi1 (by omega))

/-- Witness for `paginator_failure_cases` at concrete one-page sources:
a 401 source, a 500 source with a multi-line body, an error-node source,
a malformed-XML source, and the good stub source. -/
theorem paginator_failure_cases_witness :
    fetch_all_products page401 500 =
        .failure ((List.range' 1 1).map (dbgLine page401) ++ [unauthorizedMsg])
    ∧ fetch_all_products page500 500 =
        .failure ((List.range' 1 1).map (dbgLine page500) ++
          ["HTTP " ++ toString (page500 1).status ++ " body_snippet=" ++
            body_snippet (page500 1).text])
    ∧ fetch_all_products pageErrNode 500 =
        .failure ((List.range' 1 1).map (dbgLine pageErrNode) ++
          ["PARSE_FAIL " ++ strTake ("NO_PRODUCTS_NODE: " ++
            joinError [("Code", .str "123"), ("Message", .str "Bad token")]) 300])
    ∧ fetch_all_products badXmlPages 500 =
        .failure ((List.range' 1 1).map (dbgLine badXmlPages) ++
          ["PARSE_FAIL " ++
            strTake "XML_PARSE_ERROR: ExpatError: syntax error: line 1, column 0" 300])
    ∧ (fetch_all_products stubPages 500).isSuccess = true :=
  ⟨paginator_failure_cases.1 page401 (fun _ => []) 500 1 (by decide) (by decide)
      (fun i hi1 hi2 => absurd (lt_of_le_of_lt hi1 hi2) (by decide)) (by decide),
   paginator_failure_cases.2.1 page500 (fun _ => []) 500 1 (by decide) (by decide)
      (fun i hi1 hi2 => absurd (lt_of_le_of_lt hi1 hi2) (by decide)) (by decide) (by decide),
   paginator_failure_cases.2.2.2.1 pageErrNode (fun _ => []) 500 1
      [("Error", .dict [("Code", .str "123"), ("Message", .str "Bad token")])]
      [("Code", .str "123"), ("Message", .str "Bad token")]
      (by decide) (by decide)
      (fun i hi1 hi2 => absurd (lt_of_le_of_lt hi1 hi2) (by decide))
      (by decide) (by decide) rfl rfl rfl,
   paginator_failure_cases.2.2.2.2.1 badXmlPages (fun _ => []) 500 1
      "XML_PARSE_ERROR: ExpatError: syntax error: line 1, column 0"
      (by decide) (by decide)
      (fun i hi1 hi2 => absurd (lt_of_le_of_lt hi1 hi2) (by decide))
      (by decide) (by decide) rfl,
   paginator_failure_cases.2.2.2.2.2 stubPages 500
      (by
        intro i hi1 hi2
        refine ⟨?_, ?_, ?_⟩
        · by_cases h1 : i = 1
          · subst h1; decide
          · by_cases h2 : i = 2
            · subst h2; decide
            · simp [stubPages, h1, h2]
        · by_cases h1 : i = 1
          · subst h1; decide
          · by_cases h2 : i = 2
            · subst h2; decide
            · simp [stubPages, h1, h2]
        · by_cases h1 : i = 1
          · subst h1; exact ⟨[stubProd 1, stubProd 2], rfl⟩
          · by_cases h2 : i = 2
            · subst h2; exact ⟨[stubProd 3, stubProd 4], rfl⟩
            · refine ⟨[], ?_⟩
              simp only [stubPages, h1, h2, if_false]
              rfl)⟩

/-! ## Helper lemmas: create-sync selection and appending -/

lemma filterMap_guard {α β : Type _} (f : α → β) (p : α → Bool) :
    ∀ l : List α,
      l.filterMap (fun a => if p a then some (f a) else none) = (l.filter p).map f
  | [] => rfl
  | a :: l => by
      rw [List.filterMap_cons, List.filter_cons]
      by_cases h : p a
      · simp only [h, if_true, List.map_cons]
        rw [filterMap_guard f p l]
      · simp only [h, Bool.false_eq_true, if_false]
        rw [filterMap_guard f p l]

lemma select_new_rows_eq (headers : List String) (ex : List String)
    (prods : List (List (String × String))) :
    select_new_rows headers ex prods =
      (prods.filter (fun prod => decide ((pyGetS prod "Code").getD "" ≠ ""
        ∧ (pyGetS prod "Code").getD "" ∉ ex))).map (build_row headers) := by
  rw [← filterMap_guard (build_row headers)
    (fun prod => decide ((pyGetS prod "Code").getD "" ≠ ""
      ∧ (pyGetS prod "Code").getD "" ∉ ex)) prods]
  unfold select_new_rows
  congr 1
  funext prod
  by_cases h1 : (pyGetS prod "Code").getD "" = ""
  · simp [h1]
  · by_cases h2 : (pyGetS prod "Code").getD "" ∈ ex
    · simp [h1, h2]
    · simp [h1, h2]

lemma append_today_rows_count (g : Grid) (headers : List String)
    (rows : List (List String)) :
    (append_today_rows g headers rows).2 = rows.length := by
  unfold append_today_rows
  by_cases h : rows.isEmpty = true
  · rw [List.isEmpty_iff] at h
    simp [h]
  · simp [h]

lemma dropTrailingEmpty_eq_self_of_all (l : List String)
    (h : ∀ x ∈ l, x ≠ "") : dropTrailingEmpty l = l := by
  unfold dropTrailingEmpty
  cases hr : l.reverse with
  | nil =>
      have : l = [] := List.reverse_eq_nil_iff.mp hr
      simp [this]
  | cons a t =>
      have ha : a ∈ l := by
        rw [← List.mem_reverse, hr]
        simp
      have ha' : (a == "") = false := by simpa using h a ha
      have hstep : List.dropWhile (fun v => v == "") (a :: t) = a :: t := by
        simp [List.dropWhile_cons, ha']
      rw [hstep, ← hr, List.reverse_reverse]

lemma first_empty_row_of_full_col1 (g : Grid)
    (h : ∀ row ∈ g, row.getD 0 "" ≠ "") :
    first_empty_row g = g.length + 1 := by
  have hcol : fullCol g 1 = g.map (fun row => row.getD 0 "") := rfl
  have hall : ∀ x ∈ fullCol g 1, x ≠ "" := by
    rw [hcol]
    intro x hx
    obtain ⟨row, hrow, rfl⟩ := List.mem_map.1 hx
    exact h row hrow
  unfold first_empty_row col_values
  rw [dropTrailingEmpty_eq_self_of_all _ hall]
  cases hg : g with
  | nil => simp [fullCol, hg]
  | cons a t =>
      have : ¬(fullCol (a :: t) 1).isEmpty = true := by
        simp [fullCol]
      rw [← hg] at this
      simp only [hg] at *
      simp [this, fullCol]

lemma update_row_append (g : Grid) (v : List String) :
    update_row g (g.length + 1) v = g ++ [v] := by
  simp only [update_row]
  have h1 : g.length + 1 - g.length = 1 := by omega
  have h4 : g.length + 1 - 1 = g.length := by omega
  rw [h1, h4]
  have h5 : (List.replicate 1 ([] : List String)) = [[]] := rfl
  rw [h5]
  have h3 : (g ++ [([] : List String)]).getD g.length [] = [] := by
    rw [List.getD_eq_getElem?_getD, List.getElem?_append_right (le_refl _)]
    simp
  rw [h3, List.set_append]
  simp

lemma write_block_append : ∀ (rows : List (List String)) (g : Grid),
    write_block g (g.length + 1) rows = g ++ rows
  | [], g => by simp [write_block]
  | v :: rows, g => by
      unfold write_block
      rw [update_row_append]
      have hlen : g.length + 1 + 1 = (g ++ [v]).length + 1 := by simp
      rw [hlen, write_block_append rows (g ++ [v])]
      simp

/-! ## More claim theorems (create-sync) -/

/-- **C7** — In create-sync mode a today-created product is appended iff its
`Code` is non-empty and not already among the existing (trimmed, non-blank)
values of the mirror's code column; empty or already-present codes are
skipped; the appended count equals the number of products satisfying both
conditions. -/
theorem create_sync_appends_exactly_new_codes
    (headers : List String) (g : Grid) (code_idx : Nat)
    (prods : List (List (String × String))) :
    select_new_rows headers (read_existing_codes g code_idx) prods =
      (prods.filter (fun prod => decide ((pyGetS prod "Code").getD "" ≠ ""
        ∧ (pyGetS prod "Code").getD "" ∉ read_existing_codes g code_idx))).map
        (build_row headers)
    ∧ (append_today_rows g headers
        (select_new_rows headers (read_existing_codes g code_idx) prods)).2 =
      (prods.filter (fun prod => decide ((pyGetS prod "Code").getD "" ≠ ""
        ∧ (pyGetS prod "Code").getD "" ∉ read_existing_codes g code_idx))).length := by
  constructor
  · exact select_new_rows_eq headers (read_existing_codes g code_idx) prods
  · rw [append_today_rows_count, select_new_rows_eq, List.length_map]

/-- **C9 counterexample** — the append start row is computed from *column A*
(`col_values(1)`), not from the key column: on a sheet whose column A stops
at the header while the `Code` column has content in row 2, `first_empty_row`
returns 2, which is not strictly below the key column's content, and an
append overwrites the existing key cell `"C1"`. -/
theorem append_start_ignores_key_column :
    first_empty_row c9grid = 2
    ∧ col_values c9grid 2 = ["Code", "C1"]
    ∧ (((append_today_rows c9grid ["X", "Code"] [["a", "b"]]).1).getD 1 []).getD 1 ""
        = "b"
    ∧ (c9grid.getD 1 []).getD 1 "" = "C1" := by
  refine ⟨rfl, rfl, ?_, rfl⟩
  rfl

/-- **C9 amended** — `first_empty_row` is one plus the row of the last
non-empty cell of column A (not of the key column, and counting position
rather than non-empty cells).  When every stored row has a non-empty first
cell — in particular on mirrors whose first schema column (`ItemID`) is
always populated — this equals n+1 for a sheet with n rows of content, the
appended rows land at rows n+1 onward, and no existing content is
overwritten (the result is exactly the old grid followed by the new rows). -/
theorem append_below_column_one_content (g : Grid) (headers : List String)
    (rows : List (List String)) (h : ∀ row ∈ g, row.getD 0 "" ≠ "") :
    first_empty_row g = g.length + 1
    ∧ (append_today_rows g headers rows).1 = g ++ rows := by
  refine ⟨first_empty_row_of_full_col1 g h, ?_⟩
  unfold append_today_rows
  by_cases hr : rows.isEmpty = true
  · rw [List.isEmpty_iff] at hr
    simp [hr]
  · simp only [hr, Bool.false_eq_true, if_false]
    rw [first_empty_row_of_full_col1 g h, write_block_append]

/-- Witness for `append_below_column_one_content` on a two-row mirror with a
populated first column. -/
theorem append_below_column_one_content_witness :
    first_empty_row [["ItemID", "Code"], ["1", "C1"]] = 3
    ∧ (append_today_rows [["ItemID", "Code"], ["1", "C1"]] ["ItemID", "Code"]
        [["2", "C2"]]).1 = [["ItemID", "Code"], ["1", "C1"], ["2", "C2"]] :=
  append_below_column_one_content [["ItemID", "Code"], ["1", "C1"]]
    ["ItemID", "Code"] [["2", "C2"]] (by decide)

/-! ## Helper lemmas: `header_index` and the overlay loop -/

lemma dictInsert_mem {d : List (String × Nat)} {k : String} {v : Nat}
    {e : String × Nat} (he : e ∈ dictInsert d k v) : e ∈ d ∨ e = (k, v) := by
  unfold dictInsert at he
  by_cases h : d.any (fun e => e.1 == k)
  · simp only [h, if_true] at he
    obtain ⟨e0, he0, hmap⟩ := List.mem_map.1 he
    by_cases hk : (e0.1 == k) = true
    · simp only [hk, if_true] at hmap
      exact Or.inr hmap.symm
    · simp only [hk, Bool.false_eq_true, if_false] at hmap
      exact Or.inl (hmap ▸ he0)
  · simp only [h, if_false] at he
    rcases List.mem_append.1 he with h1 | h1
    · exact Or.inl h1
    · simp only [List.mem_singleton] at h1
      exact Or.inr h1

lemma mem_dictInsert_self (d : List (String × Nat)) (k : String) (v : Nat) :
    (k, v) ∈ dictInsert d k v := by
  unfold dictInsert
  by_cases h : d.any (fun e => e.1 == k)
  · simp only [h, if_true]
    obtain ⟨e0, he0, hk⟩ := List.any_eq_true.1 h
    refine List.mem_map.2 ⟨e0, he0, ?_⟩
    simp [hk]
  · simp [h]

lemma dictInsert_key_mem {d : List (String × Nat)} {k' : String}
    (h : ∃ w, (k', w) ∈ d) (k : String) (v : Nat) :
    ∃ w, (k', w) ∈ dictInsert d k v := by
  by_cases hk : k' = k
  · subst hk
    exact ⟨v, mem_dictInsert_self d k' v⟩
  · obtain ⟨w, hw⟩ := h
    unfold dictInsert
    by_cases hany : d.any (fun e => e.1 == k)
    · simp only [hany, if_true]
      refine ⟨w, List.mem_map.2 ⟨(k', w), hw, ?_⟩⟩
      simp [hk]
    · exact ⟨w, by simp [hany, hw]⟩

lemma header_index_aux_sound :
    ∀ (hs : List String) (i : Nat) (acc : List (String × Nat)) (e : String × Nat),
      e ∈ header_index_aux hs i acc →
      e ∈ acc ∨ ∃ j, j < hs.length ∧ hs.getD j "" = e.1 ∧ e.2 = i + j
  | [], i, acc, e => fun he => Or.inl he
  | h :: hs, i, acc, e => by
      intro he
      rcases header_index_aux_sound hs (i + 1) (dictInsert acc h i) e he with h1 | h1
      · rcases dictInsert_mem h1 with h2 | h2
        · exact Or.inl h2
        · refine Or.inr ⟨0, by simp, ?_, by simp [h2]⟩
          simp [h2]
      · obtain ⟨j, hj, hval, hidx⟩ := h1
        refine Or.inr ⟨j + 1, by simpa using hj, by simpa using hval, by omega⟩

lemma mem_header_index (headers : List String) (e : String × Nat)
    (he : e ∈ header_index headers) :
    e.2 < headers.length ∧ headers.getD e.2 "" = e.1 := by
  rcases header_index_aux_sound headers 0 [] e he with h1 | h1
  · simp at h1
  · obtain ⟨j, hj, hval, hidx⟩ := h1
    simp only [Nat.zero_add] at hidx
    exact ⟨hidx ▸ hj, hidx ▸ hval⟩

lemma header_index_aux_complete :
    ∀ (hs : List String) (i : Nat) (acc : List (String × Nat)) (h : String),
      h ∈ hs ∨ (∃ w, (h, w) ∈ acc) →
      ∃ idx, (h, idx) ∈ header_index_aux hs i acc
  | [], i, acc, h => fun hh => by
      rcases hh with hh | hh
      · simp at hh
      · exact hh
  | h0 :: hs, i, acc, h => by
      intro hh
      apply header_index_aux_complete hs (i + 1) (dictInsert acc h0 i) h
      rcases hh with hh | hh
      · rcases List.mem_cons.1 hh with rfl | hh
        · exact Or.inr ⟨i, mem_dictInsert_self acc h i⟩
        · exact Or.inl hh
      · exact Or.inr (dictInsert_key_mem hh h0 i)

lemma header_index_complete (headers : List String) (h : String)
    (hh : h ∈ headers) : ∃ i, (h, i) ∈ header_index headers :=
  header_index_aux_complete headers 0 [] h (Or.inl hh)

/-- Under a duplicate-free header, the entry of a name standing at position
`j` carries exactly the index `j`. -/
lemma header_index_nodup_idx (headers : List String) (hnd : headers.Nodup)
    {h : String} {i : Nat} (hm : (h, i) ∈ header_index headers)
    {j : Nat} (hj : j < headers.length) (hh : headers.getD j "" = h) : i = j := by
  obtain ⟨hi, hval⟩ := mem_header_index headers (h, i) hm
  simp only at hi hval
  rw [List.getD_eq_getElem headers "" hi] at hval
  rw [List.getD_eq_getElem headers "" hj] at hh
  exact (List.Nodup.getElem_inj_iff hnd).mp (by rw [hval, hh])

lemma overlay_length (prod : List (String × String)) :
    ∀ (hidx : List (String × Nat)) (row : List String),
      (overlay hidx prod row).length = row.length
  | [], row => rfl
  | e :: hidx, row => by
      unfold overlay
      rw [List.foldl_cons]
      rcases hp : pyGetS prod e.1 with _ | v
      · simp only [hp]
        exact overlay_length prod hidx row
      · simp only [hp]
        rw [show (List.foldl _ (row.set e.2 v) hidx) = overlay hidx prod (row.set e.2 v)
            from rfl]
        rw [overlay_length prod hidx (row.set e.2 v), List.length_set]

lemma overlay_getD_preserve (prod : List (String × String)) (j : Nat) :
    ∀ (hidx : List (String × Nat)) (row : List String),
      (∀ e ∈ hidx, e.2 = j → pyGetS prod e.1 = none) →
      (overlay hidx prod row).getD j "" = row.getD j ""
  | [], row => fun _ => rfl
  | e :: hidx, row => by
      intro hnone
      unfold overlay
      rw [List.foldl_cons]
      rcases hp : pyGetS prod e.1 with _ | v
      · simp only [hp]
        exact overlay_getD_preserve prod j hidx row
          (fun e' he' => hnone e' (List.mem_cons_of_mem e he'))
      · simp only [hp]
        have hne : e.2 ≠ j := by
          intro hej
          have := hnone e (List.mem_cons_self e hidx) hej
          rw [this] at hp
          exact Option.noConfusion hp
        rw [show (List.foldl _ (row.set e.2 v) hidx) = overlay hidx prod (row.set e.2 v)
            from rfl]
        rw [overlay_getD_preserve prod j hidx (row.set e.2 v)
          (fun e' he' => hnone e' (List.mem_cons_of_mem e he'))]
        rw [List.getD_eq_getElem?_getD, List.getD_eq_getElem?_getD,
          List.getElem?_set_ne hne]

lemma overlay_getD_stable (prod : List (String × String)) (j : Nat) (v : String) :
    ∀ (hidx : List (String × Nat)) (row : List String),
      (∀ e ∈ hidx, e.2 = j → pyGetS prod e.1 = some v) →
      row.getD j "" = v →
      (overlay hidx prod row).getD j "" = v
  | [], row => fun _ hrow => hrow
  | e :: hidx, row => by
      intro hall hrow
      unfold overlay
      rw [List.foldl_cons]
      rcases hp : pyGetS prod e.1 with _ | w
      · simp only [hp]
        exact overlay_getD_stable prod j v hidx row
          (fun e' he' => hall e' (List.mem_cons_of_mem e he')) hrow
      · simp only [hp]
        rw [show (List.foldl _ (row.set e.2 w) hidx) = overlay hidx prod (row.set e.2 w)
            from rfl]
        apply overlay_getD_stable prod j v hidx (row.set e.2 w)
          (fun e' he' => hall e' (List.mem_cons_of_mem e he'))
        by_cases hej : e.2 = j
        · have hw := hall e (List.mem_cons_self e hidx) hej
          rw [hp] at hw
          obtain rfl : w = v := by injection hw
          subst hej
          by_cases hlt : e.2 < row.length
          · rw [List.getD_eq_getElem?_getD, List.getElem?_set_self hlt]
            rfl
          · rw [List.getD_eq_getElem?_getD, List.getElem?_eq_none, Option.getD_none]
            · rw [List.getD_eq_getElem?_getD, List.getElem?_eq_none, Option.getD_none] at hrow
              · exact hrow
              · omega
            · rw [List.length_set]
              omega
        · rw [List.getD_eq_getElem?_getD, List.getElem?_set_ne hej, ← List.getD_eq_getElem?_getD]
          exact hrow

lemma overlay_getD_hit (prod : List (String × String)) (j : Nat) (v : String) :
    ∀ (hidx : List (String × Nat)) (row : List String),
      (∀ e ∈ hidx, e.2 = j → pyGetS prod e.1 = some v) →
      (∃ e ∈ hidx, e.2 = j) →
      j < row.length →
      (overlay hidx prod row).getD j "" = v
  | [], row => by
      intro _ hex _
      obtain ⟨e, he, -⟩ := hex
      simp at he
  | e :: hidx, row => by
      intro hall hex hj
      unfold overlay
      rw [List.foldl_cons]
      by_cases hej : e.2 = j
      · have hw := hall e (List.mem_cons_self e hidx) hej
        rw [hw]
        rw [show (List.foldl _ (row.set e.2 v) hidx) = overlay hidx prod (row.set e.2 v)
            from rfl]
        apply overlay_getD_stable prod j v hidx (row.set e.2 v)
          (fun e' he' => hall e' (List.mem_cons_of_mem e he'))
        subst hej
        rw [List.getD_eq_getElem?_getD, List.getElem?_set_self hj]
        rfl
      · obtain ⟨e', he', hej'⟩ := hex
        rcases List.mem_cons.1 he' with rfl | he'
        · exact absurd hej' hej
        · rcases hp : pyGetS prod e.1 with _ | w
          · simp only [hp]
            exact overlay_getD_hit prod j v hidx row
              (fun e'' he'' => hall e'' (List.mem_cons_of_mem e he''))
              ⟨e', he', hej'⟩ hj
          · simp only [hp]
            rw [show (List.foldl _ (row.set e.2 w) hidx) = overlay hidx prod (row.set e.2 w)
                from rfl]
            apply overlay_getD_hit prod j v hidx (row.set e.2 w)
              (fun e'' he'' => hall e'' (List.mem_cons_of_mem e he''))
              ⟨e', he', hej'⟩
            rw [List.length_set]
            exact hj

lemma getD_append_replicate_nil (g : Grid) (k i : Nat) :
    (g ++ List.replicate k ([] : List String)).getD i [] = g.getD i [] := by
  rcases lt_or_ge i g.length with hi | hi
  · rw [List.getD_eq_getElem?_getD, List.getD_eq_getElem?_getD,
      List.getElem?_append_left hi]
  · rw [List.getD_eq_getElem?_getD, List.getD_eq_getElem?_getD,
      List.getElem?_append_right hi, List.getElem?_eq_none hi, Option.getD_none]
    rcases hrep : (List.replicate k ([] : List String))[i - g.length]? with _ | x
    · simp
    · have : x = [] := List.eq_of_mem_replicate (List.getElem?_mem hrep)
      simp [this]

/-- `update_row` leaves every other row unchanged. -/
lemma update_row_other (g : Grid) (r : Nat) (vals : List String) (i : Nat)
    (hi : i ≠ r - 1) :
    (update_row g r vals).getD i [] = g.getD i [] := by
  simp only [update_row]
  rw [List.getD_eq_getElem?_getD, List.getElem?_set_ne (fun h => hi h.symm),
    ← List.getD_eq_getElem?_getD]
  exact getD_append_replicate_nil g _ i

/-! ## Claim theorem: update-write frame (C8) -/

/-- **C8** — when update-sync overwrites a matched row it first reads the
existing row, pads it to header width, overlays only the columns whose names
appear in the normalized record, and writes the result over columns
1..header-count; every header column whose name is not among the record's
fields keeps its prior cell value, a (duplicate-free) header column named in
the record receives the record's value, and any other row of the sheet is
untouched by the write. -/
theorem update_write_preserves_untouched_columns
    (headers : List String) (prod : List (String × String)) (g : Grid) (r : Nat)
    (hrow : (row_values g r).length ≤ headers.length) :
    ((updated_row_vals headers (header_index headers) prod g r).length = headers.length)
    ∧ (∀ j, j < headers.length →
        pyGetS prod (headers.getD j "") = none →
        (updated_row_vals headers (header_index headers) prod g r).getD j ""
          = (g.getD (r - 1) []).getD j "")
    ∧ (headers.Nodup → ∀ j v, j < headers.length →
        pyGetS prod (headers.getD j "") = some v →
        (updated_row_vals headers (header_index headers) prod g r).getD j "" = v)
    ∧ (∀ (g' : Grid) (r' : Nat) (vals : List String), 1 ≤ r → 1 ≤ r' → r' ≠ r →
        (update_row g' r vals).getD (r' - 1) [] = g'.getD (r' - 1) []) := by
  refine ⟨?_, ?_, ?_, ?_⟩
  · unfold updated_row_vals
    rw [overlay_length, padTo_length]
    have : (row_values g r).length ≤ headers.length := hrow
    omega
  · intro j hj hnone
    unfold updated_row_vals
    rw [overlay_getD_preserve]
    · exact getD_padTo_dropTrailing (g.getD (r - 1) []) headers.length j
    · intro e he hej
      obtain ⟨hlt, hval⟩ := mem_header_index headers e he
      rw [← hval, hej]
      exact hnone
  · intro hnd j v hj hsome
    unfold updated_row_vals
    apply overlay_getD_hit
    · intro e he hej
      obtain ⟨hlt, hval⟩ := mem_header_index headers e he
      rw [← hval, hej]
      exact hsome
    · have hmem : headers.getD j "" ∈ headers := by
        rw [List.getD_eq_getElem headers "" hj]
        exact List.getElem_mem hj
      obtain ⟨i, hi⟩ := header_index_complete headers (headers.getD j "") hmem
      have : i = j := header_index_nodup_idx headers hnd hi hj rfl
      exact ⟨(headers.getD j "", i), hi, this⟩
    · rw [padTo_length]
      omega
  · intro g' r' vals h1 h1' hne
    exact update_row_other g' r vals (r' - 1) (by omega)

/-- Witness for `update_write_preserves_untouched_columns` on a concrete
three-column sheet: column `B` is overwritten, columns `A`/`C` keep their
values, and the other row is untouched. -/
theorem update_write_preserves_untouched_columns_witness :
    ((updated_row_vals ["A", "B", "C"] (header_index ["A", "B", "C"])
        [("B", "new")] [["A", "B", "C"], ["1", "2", "3"]] 2).length = 3)
    ∧ ((updated_row_vals ["A", "B", "C"] (header_index ["A", "B", "C"])
        [("B", "new")] [["A", "B", "C"], ["1", "2", "3"]] 2).getD 0 ""
        = (([["A", "B", "C"], ["1", "2", "3"]] : Grid).getD 1 []).getD 0 "")
    ∧ ((updated_row_vals ["A", "B", "C"] (header_index ["A", "B", "C"])
        [("B", "new")] [["A", "B", "C"], ["1", "2", "3"]] 2).getD 1 "" = "new")
    ∧ ((update_row [["A", "B", "C"], ["1", "2", "3"]] 2 ["x", "y", "z"]).getD 0 []
        = ([["A", "B", "C"], ["1", "2", "3"]] : Grid).getD 0 []) := by
  have h := update_write_preserves_untouched_columns ["A", "B", "C"]
    [("B", "new")] [["A", "B", "C"], ["1", "2", "3"]] 2 (by decide)
  exact ⟨h.1, h.2.1 0 (by decide) (by decide), h.2.2.1 (by decide) 1 "new" (by decide) (by decide),
    h.2.2.2 [["A", "B", "C"], ["1", "2", "3"]] 1 ["x", "y", "z"] (by decide) (by decide) (by decide)⟩

/-! ## Helper lemmas: normalizer well-formedness -/

lemma dval_cons (a : String) (b : PVal) (e : List (String × PVal)) (k : String) :
    dval ((a, b) :: e) k = if (a == k) = true then b else dval e k := by
  unfold dval
  rw [List.find?_cons]
  by_cases h : (a == k) = true
  · simp [h]
  · simp [h]

lemma pyOrEmptyStrip_ok {x : PVal} (h : leafOKb x = true) :
    ∃ s, pyOrEmptyStrip x = some s ∧ pyStrip s = s := by
  cases x with
  | str s => exact ⟨pyStrip s, rfl, pyStrip_idem s⟩
  | null => exact ⟨"", rfl, rfl⟩
  | dict d => simp [leafOKb] at h
  | list l => simp [leafOKb] at h

lemma field_dict (d : List (String × PVal)) (k : String) :
    field (.dict d) k = pyOrEmptyStrip (dval d k) := rfl

lemma field_ok_of_leaf {d : List (String × PVal)} {k : String}
    (h : leafOKb (dval d k) = true) :
    ∃ s, field (.dict d) k = some s ∧ pyStrip s = s := by
  rw [field_dict]
  exact pyOrEmptyStrip_ok h

lemma nested_ok_dict {x : PVal} {ks : List String} (h : nestedOKb x ks = true) :
    ∃ nd, pyOrDict x = .dict nd ∧ ∀ k ∈ ks, leafOKb (dval nd k) = true := by
  cases x with
  | null => exact ⟨[], rfl, by simp [dval, leafOKb]⟩
  | str s => simp [nestedOKb] at h
  | list l => simp [nestedOKb] at h
  | dict nd =>
      refine ⟨nd, pyOrDict_dict nd, ?_⟩
      simp only [nestedOKb] at h
      exact fun k hk => List.all_eq_true.1 h k hk

lemma flag_is_true_of_ok {x : PVal} (h : leafOKb x = true) :
    ∃ b, flag_is_true x = some b := by
  obtain ⟨s, hs, -⟩ := pyOrEmptyStrip_ok h
  exact ⟨pyLower s == "true", by simp [flag_is_true, hs]⟩

/-- On flag-safe entries the scan computes exactly `List.find? flagTrueB`. -/
lemma find_default_eq_find? :
    ∀ sups : List PVal, (∀ s ∈ sups, flagOKb s = true) →
      find_default_supplier sups = some (sups.find? flagTrueB)
  | [] => fun _ => rfl
  | s :: rest => by
      intro h
      have hs := h s (List.mem_cons_self s rest)
      cases s with
      | str a => simp [flagOKb] at hs
      | null => simp [flagOKb] at hs
      | list l => simp [flagOKb] at hs
      | dict sd =>
          simp only [flagOKb] at hs
          unfold find_default_supplier
          rw [pyGet_dict]
          simp only [Option.bind_eq_bind, Option.some_bind]
          cases hx : dval sd "IsDefault" with
          | str f =>
              simp only [flag_is_true, pyOrEmptyStrip, Option.bind_eq_bind,
                Option.some_bind]
              by_cases hb : (pyLower (pyStrip f) == "true") = true
              · have hT : flagTrueB (.dict sd) = true := by
                  simp [flagTrueB, hx, hb]
                rw [List.find?_cons, hT]
                simp [hb]
              · have hT : flagTrueB (.dict sd) = false := by
                  simp only [flagTrueB, hx]
                  simpa using hb
                rw [List.find?_cons, hT]
                simp only [Bool.not_eq_true] at hb
                simp only [hb, Bool.false_eq_true, if_false]
                exact find_default_eq_find? rest
                  (fun s' hs' => h s' (List.mem_cons_of_mem _ hs'))
          | null =>
              simp only [flag_is_true, pyOrEmptyStrip, Option.bind_eq_bind,
                Option.some_bind]
              have hT : flagTrueB (.dict sd) = false := by simp [flagTrueB, hx]
              rw [List.find?_cons, hT]
              have : (pyLower "" == "true") = false := by decide
              simp only [this, Bool.false_eq_true, if_false]
              exact find_default_eq_find? rest
                (fun s' hs' => h s' (List.mem_cons_of_mem _ hs'))
          | dict d' => rw [hx] at hs; simp [leafOKb] at hs
          | list l' => rw [hx] at hs; simp [leafOKb] at hs

/-- An entry passing the flag test is a non-empty mapping, hence truthy. -/
lemma flagTrueB_truthy {s : PVal} (h : flagTrueB s = true) : pyTruthy s = true := by
  cases s with
  | dict sd =>
      cases hsd : sd with
      | nil => rw [hsd] at h; simp [flagTrueB, dval] at h
      | cons a t => simp [pyTruthy]
  | str a => simp [flagTrueB] at h
  | null => simp [flagTrueB] at h
  | list l => simp [flagTrueB] at h

lemma choose_supplier_found {sups : List PVal} {s : PVal}
    (hok : ∀ s' ∈ sups, flagOKb s' = true)
    (hfind : sups.find? flagTrueB = some s) :
    choose_supplier sups = some s := by
  unfold choose_supplier
  rw [find_default_eq_find? sups hok, hfind]
  simp only [Option.some_bind]
  have ht : pyTruthy s = true := flagTrueB_truthy (List.find?_some hfind)
  simp [ht]

lemma choose_supplier_fallback {sups : List PVal}
    (hok : ∀ s' ∈ sups, flagOKb s' = true)
    (hfind : sups.find? flagTrueB = none) :
    choose_supplier sups =
      some (if pyTruthy (sups.headD (PVal.dict []))
            then sups.headD (PVal.dict []) else PVal.dict []) := by
  unfold choose_supplier
  rw [find_default_eq_find? sups hok, hfind]
  simp only [Option.some_bind]
  cases sups with
  | nil => rfl
  | cons s rest =>
      by_cases ht : pyTruthy s = true
      · simp [pyTruthy, ht]
      · simp only [Bool.not_eq_true] at ht
        simp [pyTruthy, ht]

lemma supEntryOKb_flagOKb {s : PVal} (h : supEntryOKb s = true) :
    flagOKb s = true := by
  cases s with
  | dict ds =>
      simp only [supEntryOKb] at h
      simp only [flagOKb]
      exact List.all_eq_true.1 h "IsDefault" (by decide)
  | str a => simp [supEntryOKb] at h
  | null => simp [supEntryOKb] at h
  | list l => simp [supEntryOKb] at h

/-- On well-formed supplier lists the choice yields a mapping whose relevant
leaves are safe (the empty mapping when the list is empty). -/
lemma choose_supplier_ok {sups : List PVal}
    (h : ∀ s ∈ sups, supEntryOKb s = true) :
    ∃ ds, choose_supplier sups = some (PVal.dict ds)
      ∧ ∀ k ∈ supplierKeys, leafOKb (dval ds k) = true := by
  have hok : ∀ s ∈ sups, flagOKb s = true := fun s hs => supEntryOKb_flagOKb (h s hs)
  have hnil : ∀ k ∈ supplierKeys, leafOKb (dval ([] : List (String × PVal)) k) = true := by
    intro k hk
    simp [dval, leafOKb]
  cases hfind : sups.find? flagTrueB with
  | some s =>
      have hmem : s ∈ sups := List.mem_of_find?_eq_some hfind
      have hE := h s hmem
      cases s with
      | dict ds =>
          refine ⟨ds, choose_supplier_found hok hfind, ?_⟩
          simp only [supEntryOKb] at hE
          exact List.all_eq_true.1 hE
      | str a => simp [supEntryOKb] at hE
      | null => simp [supEntryOKb] at hE
      | list l => simp [supEntryOKb] at hE
  | none =>
      rw [choose_supplier_fallback hok hfind]
      cases sups with
      | nil => exact ⟨[], rfl, hnil⟩
      | cons s rest =>
          have hE := h s (List.mem_cons_self s rest)
          cases s with
          | dict ds =>
              by_cases ht : pyTruthy (PVal.dict ds) = true
              · refine ⟨ds, by simp [ht], ?_⟩
                simp only [supEntryOKb] at hE
                exact List.all_eq_true.1 hE
              · simp only [Bool.not_eq_true] at ht
                exact ⟨[], by simp [ht], hnil⟩
          | str a => simp [supEntryOKb] at hE
          | null => simp [supEntryOKb] at hE
          | list l => simp [supEntryOKb] at hE

/-- On a well-formed record the whole supplier extraction and selection
yields a mapping with safe leaves. -/
lemma pick_supplier_ok {d : List (String × PVal)}
    (h : suppliersOKb (dval d "Suppliers") = true) :
    ∃ ds, pick_supplier (PVal.dict d) = some (PVal.dict ds)
      ∧ ∀ k ∈ supplierKeys, leafOKb (dval ds k) = true := by
  unfold pick_supplier
  rw [pyGet_dict]
  simp only [Option.bind_eq_bind, Option.some_bind]
  cases hx : dval d "Suppliers" with
  | null =>
      have h1 : pyOrDict PVal.null = PVal.dict [] := rfl
      rw [h1]
      simp only [pyGetD, Option.some_bind]
      have h2 : ((([] : List (String × PVal)).find? (fun e => e.1 == "Supplier")).map
          (fun e => e.2)).getD (PVal.list []) = PVal.list [] := rfl
      rw [h2]
      simp only [toSupplierList, Option.some_bind]
      exact choose_supplier_ok (by simp)
  | dict sd =>
      rw [hx] at h
      rw [pyOrDict_dict]
      simp only [pyGetD, Option.some_bind]
      simp only [suppliersOKb] at h
      cases hf : (sd.find? (fun e => e.1 == "Supplier")).map (fun e => e.2) with
      | none =>
          rw [hf] at h
          simp only [hf, Option.getD_none, toSupplierList, Option.some_bind]
          exact choose_supplier_ok (by simp)
      | some v =>
          rw [hf] at h
          simp only [hf, Option.getD_some]
          cases v with
          | dict d0 =>
              simp only [toSupplierList, Option.some_bind]
              apply choose_supplier_ok
              intro s hs
              simp only [List.mem_singleton] at hs
              subst hs
              exact h
          | list l =>
              simp only [toSupplierList, Option.some_bind]
              exact choose_supplier_ok (fun s hs => List.all_eq_true.1 h s hs)
          | str a => simp at h
          | null => simp at h
  | str a => rw [hx] at h; simp [suppliersOKb] at h
  | list l => rw [hx] at h; simp [suppliersOKb] at h

lemma fieldsOf_ok :
    ∀ specs : List (String × PVal × String),
      (∀ sp ∈ specs, ∃ s, field sp.2.1 sp.2.2 = some s ∧ pyStrip s = s) →
      ∃ r, fieldsOf specs = some r ∧ r.map Prod.fst = specs.map Prod.fst
        ∧ ∀ kv ∈ r, pyStrip kv.2 = kv.2
  | [] => fun _ => ⟨[], rfl, rfl, by simp⟩
  | (label, container, key) :: specs => by
      intro h
      obtain ⟨s, hs, hstrip⟩ := h (label, container, key) (List.mem_cons_self _ _)
      obtain ⟨r, hr, hmap, hvals⟩ := fieldsOf_ok specs
        (fun sp hsp => h sp (List.mem_cons_of_mem _ hsp))
      refine ⟨(label, s) :: r, ?_, by simp [hmap], ?_⟩
      · unfold fieldsOf
        simp only [Option.bind_eq_bind]
        rw [show field (label, container, key).2.1 (label, container, key).2.2
            = field container key from rfl] at hs
        rw [hs, hr]
        rfl
      · intro kv hkv
        rcases List.mem_cons.1 hkv with rfl | hkv
        · exact hstrip
        · exact hvals kv hkv

/-- On well-formed records the normalizer succeeds, returns exactly the
schema's columns as keys, and every value is trim-fixed. -/
lemma normalize_wf (p : PVal) (hwf : wfRecord p = true) :
    ∃ r, normalize_product_full_for_sheet p = some r
      ∧ r.map Prod.fst = PRODUCT_COLUMNS
      ∧ ∀ kv ∈ r, pyStrip kv.2 = kv.2 := by
  cases p with
  | str s => simp [wfRecord] at hwf
  | null => simp [wfRecord] at hwf
  | list l => simp [wfRecord] at hwf
  | dict d =>
      simp only [wfRecord, Bool.and_eq_true] at hwf
      obtain ⟨⟨⟨⟨⟨⟨htop, hunit⟩, hgroup⟩, hinv⟩, hprice⟩, hts⟩, hsups⟩ := hwf
      obtain ⟨nd1, hnd1, hleaf1⟩ := nested_ok_dict hunit
      obtain ⟨nd2, hnd2, hleaf2⟩ := nested_ok_dict hgroup
      obtain ⟨nd3, hnd3, hleaf3⟩ := nested_ok_dict hinv
      obtain ⟨nd4, hnd4, hleaf4⟩ := nested_ok_dict hprice
      obtain ⟨nd5, hnd5, hleaf5⟩ := nested_ok_dict hts
      obtain ⟨ds, hds, hleafS⟩ := pick_supplier_ok hsups
      have htop' := List.all_eq_true.1 htop
      have hchain : normalize_product_full_for_sheet (.dict d)
          = fieldsOf (fieldSpecs (.dict d) (.dict nd1) (.dict nd2) (.dict nd3)
              (.dict nd4) (.dict nd5) (.dict ds)) := by
        unfold normalize_product_full_for_sheet
        rw [pyOrDict_dict]
        simp only [pyGet_dict, Option.bind_eq_bind, Option.some_bind]
        rw [hnd1, hnd2, hnd3, hnd4, hnd5, hds]
        simp only [Option.some_bind]
      rw [hchain]
      apply fieldsOf_ok
      intro sp hsp
      fin_cases hsp <;> dsimp only <;>
        first
        | exact field_ok_of_leaf (htop' _ (by decide))
        | exact field_ok_of_leaf (hleaf1 _ (by decide))
        | exact field_ok_of_leaf (hleaf2 _ (by decide))
        | exact field_ok_of_leaf (hleaf3 _ (by decide))
        | exact field_ok_of_leaf (hleaf4 _ (by decide))
        | exact field_ok_of_leaf (hleaf5 _ (by decide))
        | exact field_ok_of_leaf (hleafS _ (by decide))

lemma pick_supplier_dict (d : List (String × PVal)) :
    pick_supplier (.dict d)
      = ((pyGetD (pyOrDict (dval d "Suppliers")) "Supplier" (.list [])).bind
          toSupplierList).bind choose_supplier := by
  unfold pick_supplier
  rw [pyGet_dict]
  simp only [Option.bind_eq_bind, Option.some_bind, Option.bind_assoc]

lemma fieldsOf_fieldSpecs_congr (p1 p2 unit group inv price ts sup : PVal)
    (hp : ∀ k ∈ topLeafKeys, field p1 k = field p2 k) :
    fieldsOf (fieldSpecs p1 unit group inv price ts sup)
      = fieldsOf (fieldSpecs p2 unit group inv price ts sup) := by
  simp only [fieldSpecs, fieldsOf]
  rw [hp "ItemID" (by decide), hp "Code" (by decide), hp "Name" (by decide),
      hp "Status" (by decide), hp "Type" (by decide), hp "BarCode" (by decide),
      hp "CountryOrigin" (by decide), hp "CommodityCode" (by decide),
      hp "HasImage" (by decide), hp "HasLots" (by decide), hp "Weight" (by decide),
      hp "OrderLeadTime" (by decide), hp "Cost" (by decide),
      hp "StandardCost" (by decide)]

/-- Two records differing only in the `Suppliers` node normalize to the same
result as soon as their flattened supplier lists agree. -/
lemma normalize_congr_suppliers (e : List (String × PVal)) (v1 v2 : PVal)
    (hv : (pyGetD (pyOrDict v1) "Supplier" (.list [])).bind toSupplierList
        = (pyGetD (pyOrDict v2) "Supplier" (.list [])).bind toSupplierList) :
    normalize_product_full_for_sheet (.dict (("Suppliers", v1) :: e))
      = normalize_product_full_for_sheet (.dict (("Suppliers", v2) :: e)) := by
  have hd : ∀ k, ("Suppliers" == k) = false →
      dval (("Suppliers", v1) :: e) k = dval (("Suppliers", v2) :: e) k := by
    intro k hk
    rw [dval_cons, dval_cons, hk]
    simp
  have hsup1 : dval (("Suppliers", v1) :: e) "Suppliers" = v1 := by
    rw [dval_cons]
    simp
  have hsup2 : dval (("Suppliers", v2) :: e) "Suppliers" = v2 := by
    rw [dval_cons]
    simp
  unfold normalize_product_full_for_sheet
  rw [pyOrDict_dict, pyOrDict_dict]
  simp only [pyGet_dict, Option.bind_eq_bind, Option.some_bind]
  rw [pick_supplier_dict, pick_supplier_dict, hsup1, hsup2, hv,
      hd "Unit" (by decide), hd "Group" (by decide),
      hd "Inventory" (by decide), hd "Price" (by decide),
      hd "TimeStamps" (by decide)]
  apply congrArg
  funext supplier
  apply fieldsOf_fieldSpecs_congr
  intro k hk
  rw [show field (PVal.dict (("Suppliers", v1) :: e)) k
      = pyOrEmptyStrip (dval (("Suppliers", v1) :: e) k) from rfl,
    show field (PVal.dict (("Suppliers", v2) :: e)) k
      = pyOrEmptyStrip (dval (("Suppliers", v2) :: e) k) from rfl]
  rw [hd k ?_]
  fin_cases hk <;> decide

/-! ## Claim theorems: normalizer (C5, C6) -/

/-- **C5 counterexample** — the code selects the first supplier whose
`IsDefault` flag equals `"true"` *after stripping whitespace and
lowercasing*; the claim's predicate ("case-insensitively equals true",
without trimming) picks a different entry: with flags `" true"` and
`"true"`, the code picks the first entry (name `A`), while only the second
flag case-insensitively equals `"true"`. -/
theorem supplier_flag_trimmed_counterexample :
    find_default_supplier [c5sup1, c5sup2] = some (some c5sup1)
    ∧ pyLower " true" ≠ "true"
    ∧ pyLower "true" = "true"
    ∧ (∃ r, normalize_product_full_for_sheet c5item = some r
        ∧ pyGetS r "SupplierName" = some "A") := by
  refine ⟨rfl, by decide, rfl, ?_⟩
  exact ⟨(normalize_product_full_for_sheet c5item).getD [], by decide, by decide⟩

/-- **C5 amended** — supplier selection: a single-mapping supplier node is
treated as a one-element list (normalization of a record with a single
mapping equals that of the same mapping wrapped in a one-element list); the
chosen supplier is the first entry whose is-default flag, after trimming
surrounding whitespace, case-insensitively equals `"true"`
(`find? flagTrueB`), or, if none matches, the first entry of the list; if
the list is empty (or the node absent), the chosen supplier is the empty
mapping and all supplier-prefixed fields are empty strings. -/
theorem supplier_selection_spec :
    (∀ (e : List (String × PVal)) (d : List (String × PVal)),
        normalize_product_full_for_sheet
          (.dict (("Suppliers", .dict [("Supplier", .dict d)]) :: e))
          = normalize_product_full_for_sheet
            (.dict (("Suppliers", .dict [("Supplier", .list [.dict d])]) :: e)))
    ∧ (∀ sups : List PVal, (∀ s ∈ sups, flagOKb s = true) →
        find_default_supplier sups = some (sups.find? flagTrueB))
    ∧ (∀ (sups : List PVal) (s : PVal), (∀ s' ∈ sups, flagOKb s' = true) →
        sups.find? flagTrueB = some s → choose_supplier sups = some s)
    ∧ (∀ sups : List PVal, (∀ s' ∈ sups, flagOKb s' = true) →
        sups.find? flagTrueB = none →
        choose_supplier sups =
          some (if pyTruthy (sups.headD (PVal.dict []))
                then sups.headD (PVal.dict []) else PVal.dict []))
    ∧ (∀ k, field (PVal.dict []) k = some "")
    ∧ choose_supplier [] = some (PVal.dict []) := by
  refine ⟨?_, ?_, ?_, ?_, ?_, rfl⟩
  · intro e d
    exact normalize_congr_suppliers e _ _ rfl
  · exact find_default_eq_find?
  · exact fun sups s hok hfind => choose_supplier_found hok hfind
  · exact fun sups hok hfind => choose_supplier_fallback hok hfind
  · intro k
    rfl

/-- Witness for `supplier_selection_spec`: concrete wrap-equivalence and a
two-supplier list whose second entry is the stripped-lowered default. -/
theorem supplier_selection_spec_witness :
    (normalize_product_full_for_sheet
        (.dict [("Suppliers", .dict [("Supplier",
          .dict [("SupplierName", .str "S")])]), ("Code", .str "W")])
      = normalize_product_full_for_sheet
        (.dict [("Suppliers", .dict [("Supplier",
          .list [.dict [("SupplierName", .str "S")]])]), ("Code", .str "W")]))
    ∧ find_default_supplier [c5sup1, c5sup2] = some (some c5sup1)
    ∧ choose_supplier [c5sup1, c5sup2] = some c5sup1
    ∧ choose_supplier [.dict [("IsDefault", .str "no"), ("SupplierName", .str "F")]]
        = some (.dict [("IsDefault", .str "no"), ("SupplierName", .str "F")]) :=
  ⟨supplier_selection_spec.1 [("Code", .str "W")] [("SupplierName", .str "S")],
   (by
      have h := supplier_selection_spec.2.1 [c5sup1, c5sup2] (by decide)
      rwa [show ([c5sup1, c5sup2].find? flagTrueB) = some c5sup1 from rfl] at h),
   supplier_selection_spec.2.2.1 [c5sup1, c5sup2] c5sup1 (by decide) rfl,
   (by
      have h := supplier_selection_spec.2.2.2.1
        [.dict [("IsDefault", .str "no"), ("SupplierName", .str "F")]]
        (by decide) rfl
      simpa using h)⟩

/-- **C6 counterexample** — the normalizer is *not* total on every input
record: a record whose `Unit` node is a truthy non-mapping (here the string
`"pcs"`, as `<Unit>pcs</Unit>` parses) makes `unit.get("UnitID")` raise an
`AttributeError` (modelled as `none`). -/
theorem normalizer_raises_on_nondict_unit :
    normalize_product_full_for_sheet (.dict [("Unit", .str "pcs")]) = none := by
  decide

/-- **C6 amended** — on every record whose extracted leaves are strings or
null/absent and whose nested nodes (`Unit`, `Group`, `Inventory`, `Price`,
`TimeStamps`, `Suppliers` and its entries) are mappings, null, or absent,
the normalizer never raises, its key set is exactly the schema's column
list, and every value is a string with no leading/trailing whitespace;
absent fields and absent nested structures yield the empty string (the empty
record maps every schema column to `""`). -/
theorem normalizer_total_on_wellformed :
    (∀ p, wfRecord p = true →
        ∃ r, normalize_product_full_for_sheet p = some r
          ∧ r.map Prod.fst = PRODUCT_COLUMNS
          ∧ ∀ kv ∈ r, pyStrip kv.2 = kv.2)
    ∧ normalize_product_full_for_sheet (.dict [])
        = some (PRODUCT_COLUMNS.map (fun c => (c, ""))) :=
  ⟨normalize_wf, by decide⟩

/-- Witness for `normalizer_total_on_wellformed` on a record with nested
nodes present, null, and absent, plus a supplier list. -/
theorem normalizer_total_on_wellformed_witness :
    ∃ r, normalize_product_full_for_sheet c6item = some r
      ∧ r.map Prod.fst = PRODUCT_COLUMNS
      ∧ ∀ kv ∈ r, pyStrip kv.2 = kv.2 :=
  normalizer_total_on_wellformed.1 c6item (by decide)

/-! ## Helper lemmas: update-sync reconciliation (C1) -/

/-- Row writes and not-found skips counted by the update loop, as filters
over the incoming products against the (fixed) code→row map. -/
lemma sync_updated_rows_counts (headers : List String) (hidx : List (String × Nat))
    (codeMap : List (String × Nat)) :
    ∀ (prods : List (List (String × String))) (g : Grid),
      (sync_updated_rows headers hidx codeMap g prods).2.1 =
        (prods.filter (fun prod => !((pyGetS prod "Code").getD "" == "") &&
          (mapLookup codeMap ((pyGetS prod "Code").getD "")).isSome)).length
      ∧ (sync_updated_rows headers hidx codeMap g prods).2.2 =
        (prods.filter (fun prod => !((pyGetS prod "Code").getD "" == "") &&
          !(mapLookup codeMap ((pyGetS prod "Code").getD "")).isSome)).length
  | [], g => ⟨rfl, rfl⟩
  | prod :: prods, g => by
      rw [List.filter_cons, List.filter_cons]
      by_cases h1 : (pyGetS prod "Code").getD "" = ""
      · have hb : (!((pyGetS prod "Code").getD "" == "")) = false := by simpa using h1
        simp only [hb, Bool.false_and, Bool.false_eq_true, if_false]
        unfold sync_updated_rows
        simp only [h1, if_true]
        exact sync_updated_rows_counts headers hidx codeMap prods g
      · have hb : (!((pyGetS prod "Code").getD "" == "")) = true := by simpa using h1
        unfold sync_updated_rows
        simp only [h1, if_false]
        cases hm : mapLookup codeMap ((pyGetS prod "Code").getD "") with
        | none =>
            simp only [hb, hm, Option.isSome_none, Bool.and_false, Bool.false_eq_true,
              if_false, Bool.not_false, Bool.and_true, if_true, List.length_cons]
            have ih := sync_updated_rows_counts headers hidx codeMap prods g
            exact ⟨ih.1, by rw [← ih.2]⟩
        | some r =>
            simp only [hb, hm, Option.isSome_some, Bool.and_true, if_true,
              Bool.not_true, Bool.and_false, Bool.false_eq_true, if_false,
              List.length_cons]
            have ih := sync_updated_rows_counts headers hidx codeMap prods
              (update_row g r (updated_row_vals headers hidx prod g r))
            exact ⟨by rw [← ih.1], ih.2⟩

lemma update_row_length (g : Grid) (r : Nat) (vals : List String)
    (hrlen : r ≤ g.length) : (update_row g r vals).length = g.length := by
  simp only [update_row]
  rw [List.length_set, List.length_append, List.length_replicate]
  omega

lemma update_row_self (g : Grid) (r : Nat) (vals : List String)
    (hr1 : 1 ≤ r) (hrlen : r ≤ g.length) :
    (update_row g r vals).getD (r - 1) []
      = vals ++ (g.getD (r - 1) []).drop vals.length := by
  simp only [update_row]
  have hrep : r - g.length = 0 := by omega
  rw [hrep]
  simp only [List.replicate_zero, List.append_nil]
  rw [List.getD_eq_getElem?_getD, List.getElem?_set_self (by omega)]
  rfl

lemma getD_append_left_of_lt {l1 l2 : List String} {j : Nat} (hj : j < l1.length) :
    (l1 ++ l2).getD j "" = l1.getD j "" := by
  rw [List.getD_eq_getElem?_getD, List.getD_eq_getElem?_getD,
    List.getElem?_append_left hj]

/-- The cell a write leaves at a column covered by the written values. -/
lemma update_row_cell (g : Grid) (r : Nat) (vals : List String) (c1 : Nat)
    (hr1 : 1 ≤ r) (hrlen : r ≤ g.length) (hc : c1 < vals.length) :
    ((update_row g r vals).getD (r - 1) []).getD c1 "" = vals.getD c1 "" := by
  rw [update_row_self g r vals hr1 hrlen, getD_append_left_of_lt hc]

lemma mapLookup_mem {m : List (String × Nat)} {k : String} {r : Nat}
    (h : mapLookup m k = some r) : (k, r) ∈ m := by
  unfold mapLookup at h
  rcases hf : m.find? (fun e => e.1 == k) with _ | e
  · rw [hf] at h
    simp at h
  · rw [hf] at h
    simp only [Option.map_some', Option.some.injEq] at h
    have he := List.mem_of_find?_eq_some hf
    have hk := List.find?_some hf
    simp only [beq_iff_eq] at hk
    have : e = (k, r) := by
      cases e
      simp only at hk h
      simp [hk, h]
    exact this ▸ he

/-- Entries added by the code→row loop: position-correct, trimmed, non-blank. -/
lemma build_code_map_sound :
    ∀ (l : List String) (i : Nat) (acc : List (String × Nat)) (e : String × Nat),
      e ∈ build_code_map l i acc →
      e ∈ acc ∨ ∃ j, j < l.length ∧ pyStrip (l.getD j "") = e.1 ∧ e.2 = i + j ∧ e.1 ≠ ""
  | [], i, acc, e => fun he => Or.inl he
  | v :: l, i, acc, e => by
      intro he
      unfold build_code_map at he
      dsimp only at he
      by_cases hcond : (!(pyStrip v == "") &&
          ((acc.find? (fun e => e.1 == pyStrip v)).isNone)) = true
      · rw [if_pos hcond] at he
        rcases build_code_map_sound l (i + 1) (acc ++ [(pyStrip v, i)]) e he with h1 | h1
        · rcases List.mem_append.1 h1 with h2 | h2
          · exact Or.inl h2
          · simp only [List.mem_singleton] at h2
            subst h2
            refine Or.inr ⟨0, by simp, by simp, by simp, ?_⟩
            simp only [Bool.and_eq_true, Bool.not_eq_true'] at hcond
            simpa using hcond.1
        · obtain ⟨j, hj, hs, hi, hne⟩ := h1
          exact Or.inr ⟨j + 1, by simpa using hj, by simpa using hs, by omega, hne⟩
      · rw [if_neg hcond] at he
        rcases build_code_map_sound l (i + 1) acc e he with h1 | h1
        · exact Or.inl h1
        · obtain ⟨j, hj, hs, hi, hne⟩ := h1
          exact Or.inr ⟨j + 1, by simpa using hj, by simpa using hs, by omega, hne⟩

/-- Distinct map entries carry distinct row numbers. -/
lemma build_code_map_val_inj :
    ∀ (l : List String) (i : Nat) (acc : List (String × Nat)),
      (∀ e ∈ acc, e.2 < i) →
      (∀ e1 ∈ acc, ∀ e2 ∈ acc, e1.2 = e2.2 → e1 = e2) →
      ∀ e1 ∈ build_code_map l i acc, ∀ e2 ∈ build_code_map l i acc,
        e1.2 = e2.2 → e1 = e2
  | [], i, acc => fun _ hinj => hinj
  | v :: l, i, acc => by
      intro hlt hinj
      unfold build_code_map
      dsimp only
      by_cases hcond : (!(pyStrip v == "") &&
          ((acc.find? (fun e => e.1 == pyStrip v)).isNone)) = true
      · rw [if_pos hcond]
        apply build_code_map_val_inj l (i + 1) (acc ++ [(pyStrip v, i)])
        · intro e he
          rcases List.mem_append.1 he with h | h
          · have := hlt e h
            omega
          · simp only [List.mem_singleton] at h
            subst h
            omega
        · intro e1 he1 e2 he2 hv
          rcases List.mem_append.1 he1 with h1 | h1 <;>
            rcases List.mem_append.1 he2 with h2 | h2
          · exact hinj e1 h1 e2 h2 hv
          · simp only [List.mem_singleton] at h2
            subst h2
            have := hlt e1 h1
            omega
          · simp only [List.mem_singleton] at h1
            subst h1
            have := hlt e2 h2
            omega
          · simp only [List.mem_singleton] at h1 h2
            rw [h1, h2]
      · rw [if_neg hcond]
        apply build_code_map_val_inj l (i + 1) acc
        · intro e he
          have := hlt e he
          omega
        · exact hinj

/-- The map depends on the column only through the trimmed cell values. -/
lemma build_code_map_congr :
    ∀ (l1 l2 : List String), l1.map pyStrip = l2.map pyStrip →
      ∀ (i : Nat) (acc : List (String × Nat)),
        build_code_map l1 i acc = build_code_map l2 i acc
  | [], [] => fun _ _ _ => rfl
  | [], v :: l2 => by intro h; simp at h
  | v :: l1, [] => by intro h; simp at h
  | v1 :: l1, v2 :: l2 => by
      intro h i acc
      simp only [List.map_cons, List.cons.injEq] at h
      unfold build_code_map
      dsimp only
      rw [h.1]
      exact build_code_map_congr l1 l2 h.2 (i + 1) _

lemma takeWhile_length_congr {α : Type _} {q : α → Bool} :
    ∀ (l1 l2 : List α), l1.map q = l2.map q →
      (l1.takeWhile q).length = (l2.takeWhile q).length
  | [], [] => fun _ => rfl
  | [], a :: l2 => by intro h; simp at h
  | a :: l1, [] => by intro h; simp at h
  | a1 :: l1, a2 :: l2 => by
      intro h
      simp only [List.map_cons, List.cons.injEq] at h
      rw [List.takeWhile_cons, List.takeWhile_cons, h.1]
      cases hq : q a2
      · simp
      · simp only [if_true, List.length_cons]
        rw [takeWhile_length_congr l1 l2 h.2]

lemma dte_length_eq (l : List String) :
    (dropTrailingEmpty l).length
      = l.length - (l.reverse.takeWhile (fun v => v == "")).length := by
  unfold dropTrailingEmpty
  rw [List.length_reverse]
  have h := congrArg List.length
    (List.takeWhile_append_dropWhile (p := fun v => v == "") (l := l.reverse))
  simp only [List.length_append, List.length_reverse] at h
  omega

lemma dte_length_congr (l1 l2 : List String)
    (hq : l1.map (fun v => v == "") = l2.map (fun v => v == "")) :
    (dropTrailingEmpty l1).length = (dropTrailingEmpty l2).length := by
  have hlen : l1.length = l2.length := by
    have := congrArg List.length hq
    simpa using this
  rw [dte_length_eq, dte_length_eq, hlen]
  congr 1
  apply takeWhile_length_congr
  rw [List.map_reverse, List.map_reverse, hq]

lemma dte_as_take (l : List String) :
    dropTrailingEmpty l = l.take (dropTrailingEmpty l).length := by
  obtain ⟨t, hl, -⟩ := dropTrailingEmpty_spec l
  set D := dropTrailingEmpty l with hD
  calc D = (D ++ t).take D.length := by rw [List.take_left]
    _ = l.take D.length := by rw [← hl]

lemma fullCol_getD (g : Grid) (c i : Nat) :
    (fullCol g c).getD i "" = (g.getD i []).getD (c - 1) "" := by
  unfold fullCol
  rcases lt_or_ge i g.length with hi | hi
  · rw [List.getD_eq_getElem?_getD, List.getElem?_map,
      List.getElem?_eq_getElem hi]
    rw [List.getD_eq_getElem?_getD (l := g), List.getElem?_eq_getElem hi]
    rfl
  · rw [List.getD_eq_getElem?_getD, List.getElem?_eq_none (by simpa using hi),
      List.getD_eq_getElem?_getD (l := g), List.getElem?_eq_none hi]
    rfl

/-- The code→row map only sees the trimmed values and blank-ness of the code
column. -/
lemma read_code_map_congr (g1 g2 : Grid) (c : Nat)
    (hlen : g1.length = g2.length)
    (hstrip : ∀ i, pyStrip ((g1.getD i []).getD (c - 1) "")
        = pyStrip ((g2.getD i []).getD (c - 1) ""))
    (hemp : ∀ i, ((g1.getD i []).getD (c - 1) "" = "")
        ↔ ((g2.getD i []).getD (c - 1) "" = "")) :
    read_code_to_row_map g1 c = read_code_to_row_map g2 c := by
  have hclen : (fullCol g1 c).length = (fullCol g2 c).length := by
    simp [fullCol, hlen]
  have hq : (fullCol g1 c).map (fun v => v == "")
      = (fullCol g2 c).map (fun v => v == "") := by
    apply List.ext_getElem (by simpa using hclen)
    intro i h1 h2
    rw [List.getElem_map, List.getElem_map,
      ← List.getD_eq_getElem (fullCol g1 c) "" (by simpa using h1),
      ← List.getD_eq_getElem (fullCol g2 c) "" (by simpa using h2),
      fullCol_getD, fullCol_getD]
    by_cases hv : (g1.getD i []).getD (c - 1) "" = ""
    · have hv2 := (hemp i).mp hv
      rw [hv, hv2]
    · have hv2 : ¬((g2.getD i []).getD (c - 1) "" = "") := fun h => hv ((hemp i).mpr h)
      have b1 : ((g1.getD i []).getD (c - 1) "" == "") = false := by simpa using hv
      have b2 : ((g2.getD i []).getD (c - 1) "" == "") = false := by simpa using hv2
      rw [b1, b2]
  have hk : (dropTrailingEmpty (fullCol g1 c)).length
      = (dropTrailingEmpty (fullCol g2 c)).length := dte_length_congr _ _ hq
  have hs : (col_values g1 c).map pyStrip = (col_values g2 c).map pyStrip := by
    unfold col_values
    rw [dte_as_take (fullCol g1 c), dte_as_take (fullCol g2 c), ← hk]
    apply List.ext_getElem
    · simp only [List.length_map, List.length_take]
      omega
    · intro i h1 h2
      simp only [List.length_map, List.length_take] at h1 h2
      rw [List.getElem_map, List.getElem_map, List.getElem_take, List.getElem_take,
        ← List.getD_eq_getElem (fullCol g1 c) "" (by omega),
        ← List.getD_eq_getElem (fullCol g2 c) "" (by omega),
        fullCol_getD, fullCol_getD]
      exact hstrip i
  unfold read_code_to_row_map
  apply build_code_map_congr
  rw [List.map_drop, List.map_drop, hs]

/-- The update loop preserves the sheet's length, its header row, and the
trimmed content and blank-ness of every cell of the code column. -/
lemma sync_updated_rows_preserves (headers : List String)
    (hidx : List (String × Nat)) (codeMap : List (String × Nat)) (i0 : Nat)
    (hsound : ∀ e ∈ hidx, e.2 < headers.length ∧ headers.getD e.2 "" = e.1)
    (hcode : ("Code", i0) ∈ hidx)
    (hinj : ∀ e1 ∈ codeMap, ∀ e2 ∈ codeMap, e1.2 = e2.2 → e1 = e2) :
    ∀ (prods : List (List (String × String))) (g : Grid),
      (∀ e ∈ codeMap, 2 ≤ e.2 ∧ e.2 ≤ g.length ∧ pyStrip e.1 = e.1 ∧ e.1 ≠ "" ∧
        pyStrip ((g.getD (e.2 - 1) []).getD i0 "") = e.1) →
      ((sync_updated_rows headers hidx codeMap g prods).1.length = g.length
      ∧ (sync_updated_rows headers hidx codeMap g prods).1.getD 0 [] = g.getD 0 []
      ∧ (∀ i,
          pyStrip (((sync_updated_rows headers hidx codeMap g prods).1.getD i []).getD i0 "")
            = pyStrip ((g.getD i []).getD i0 "")
          ∧ ((((sync_updated_rows headers hidx codeMap g prods).1.getD i []).getD i0 "") = ""
            ↔ ((g.getD i []).getD i0 "") = "")))
  | [], g => fun _ => ⟨rfl, rfl, fun i => ⟨rfl, Iff.rfl⟩⟩
  | prod :: prods, g => by
      intro hms
      unfold sync_updated_rows
      by_cases h1 : (pyGetS prod "Code").getD "" = ""
      · simp only [h1, if_true]
        exact sync_updated_rows_preserves headers hidx codeMap i0 hsound hcode hinj
          prods g hms
      · simp only [h1, if_false]
        cases hm : mapLookup codeMap ((pyGetS prod "Code").getD "") with
        | none =>
            exact sync_updated_rows_preserves headers hidx codeMap i0 hsound hcode hinj
              prods g hms
        | some r =>
            have hmem := mapLookup_mem hm
            obtain ⟨hr2, hrlen, hktrim, hkne, hcell⟩ := hms _ hmem
            simp only at hr2 hrlen hktrim hkne hcell
            set code := (pyGetS prod "Code").getD "" with hcodedef
            set vals := updated_row_vals headers hidx prod g r with hvals
            have hi0lt : i0 < headers.length := (hsound _ hcode).1
            have hvalslen : headers.length ≤ vals.length := by
              rw [hvals]
              unfold updated_row_vals
              rw [overlay_length, padTo_length]
              omega
            have hpy : pyGetS prod "Code" = some code := by
              rcases hp : pyGetS prod "Code" with _ | c
              · rw [hcodedef] at h1
                rw [hp] at h1
                simp at h1
              · rw [hcodedef, hp]
                rfl
            have hcellnew : vals.getD i0 "" = code := by
              rw [hvals]
              unfold updated_row_vals
              apply overlay_getD_hit
              · intro e he hei
                obtain ⟨hel, hev⟩ := hsound e he
                have : e.1 = "Code" := by
                  rw [← hev, hei, (hsound _ hcode).2]
                rw [this]
                exact hpy
              · exact ⟨("Code", i0), hcode, rfl⟩
              · rw [padTo_length]
                omega
            set g1 := update_row g r vals with hg1
            have hg1len : g1.length = g.length := update_row_length g r vals hrlen
            have hg1cell : (g1.getD (r - 1) []).getD i0 "" = code := by
              rw [hg1]
              rw [update_row_cell g r vals i0 (by omega) hrlen (by omega)]
              exact hcellnew
            have hg1other : ∀ i, i ≠ r - 1 → g1.getD i [] = g.getD i [] := by
              intro i hi
              rw [hg1]
              exact update_row_other g r vals i hi
            have hms1 : ∀ e ∈ codeMap, 2 ≤ e.2 ∧ e.2 ≤ g1.length ∧
                pyStrip e.1 = e.1 ∧ e.1 ≠ "" ∧
                pyStrip ((g1.getD (e.2 - 1) []).getD i0 "") = e.1 := by
              intro e he
              obtain ⟨he2, helen, hetrim, hene, hecell⟩ := hms e he
              refine ⟨he2, by omega, hetrim, hene, ?_⟩
              by_cases heq : e.2 = r
              · have : e = (code, r) := hinj e he _ hmem (by simpa using heq)
                rw [heq, hg1cell, this]
                exact hktrim
              · rw [hg1other (e.2 - 1) (by omega)]
                exact hecell
            have ih := sync_updated_rows_preserves headers hidx codeMap i0 hsound
              hcode hinj prods g1 hms1
            refine ⟨by rw [ih.1, hg1len], ?_, ?_⟩
            · rw [ih.2.1, hg1other 0 (by omega)]
            · intro i
              obtain ⟨ihs, ihe⟩ := ih.2.2 i
              by_cases hi : i = r - 1
              · subst hi
                have holdcell : pyStrip ((g.getD (r - 1) []).getD i0 "") = code := hcell
                have holdne : (g.getD (r - 1) []).getD i0 "" ≠ "" := by
                  intro hx
                  rw [hx, pyStrip_empty] at holdcell
                  exact hkne holdcell.symm
                constructor
                · rw [ihs, hg1cell, hktrim, holdcell]
                · rw [ihe, hg1cell]
                  constructor
                  · intro hx
                    exact absurd hx hkne
                  · intro hx
                    exact absurd hx holdne
              · constructor
                · rw [ihs, hg1other i hi]
                · rw [ihe, hg1other i hi]

lemma update_row_one_getD (g : Grid) (vals : List String) :
    (update_row g 1 vals).getD 0 [] = vals ++ (g.getD 0 []).drop vals.length := by
  cases g with
  | nil => simp [update_row]
  | cons a t =>
      have h := update_row_self (a :: t) 1 vals (le_refl 1) (by simp)
      simpa using h

lemma dte_nil_all_empty {l : List String} (h : dropTrailingEmpty l = []) :
    ∀ x ∈ l, x = "" := by
  obtain ⟨t, hl, ht⟩ := dropTrailingEmpty_spec l
  rw [h, List.nil_append] at hl
  exact hl ▸ ht

lemma dte_getD_of_lt (l : List String) (j : Nat)
    (hj : j < (dropTrailingEmpty l).length) :
    (dropTrailingEmpty l).getD j "" = l.getD j "" := by
  obtain ⟨t, hl, -⟩ := dropTrailingEmpty_spec l
  conv_rhs => rw [hl]
  rw [getD_append_left_of_lt hj]

lemma ensure_header_list_ne_nil (hs : List String) : ensure_header_list hs ≠ [] := by
  intro h
  have := mem_ensure_header_list hs "Code" (by decide)
  rw [h] at this
  simp at this

/-- Reading row 1 back. -/
lemma row_values_one (g : Grid) :
    row_values g 1 = dropTrailingEmpty (g.getD 0 []) := rfl

/-- `ensure_header` leaves the sheet so that row 1 reads back exactly the
returned header list, which contains every schema column; other rows are
untouched. -/
lemma ensure_header_grid_spec (g : Grid) :
    row_values (ensure_header_grid g).1 1 = (ensure_header_grid g).2
    ∧ (∀ c ∈ PRODUCT_COLUMNS, c ∈ (ensure_header_grid g).2)
    ∧ (ensure_header_grid g).2 ≠ []
    ∧ (∀ i, i ≠ 0 → (ensure_header_grid g).1.getD i [] = g.getD i []) := by
  unfold ensure_header_grid
  by_cases hemp : (row_values g 1).isEmpty = true
  · rw [if_pos hemp]
    dsimp only
    have hall : ∀ x ∈ g.getD 0 [], x = "" := by
      apply dte_nil_all_empty
      rw [List.isEmpty_iff] at hemp
      rw [← row_values_one]
      exact hemp
    refine ⟨?_, fun c hc => hc, by decide, ?_⟩
    · show row_values (update_row g 1 PRODUCT_COLUMNS) 1 = PRODUCT_COLUMNS
      rw [row_values_one, update_row_one_getD]
      rw [dropTrailingEmpty_append_empties _ _
        (fun x hx => hall x (List.mem_of_mem_drop hx))]
      decide
    · intro i hi
      exact update_row_other g 1 PRODUCT_COLUMNS i (by omega)
  · rw [if_neg hemp]
    by_cases hsame : ensure_header_list (row_values g 1) = row_values g 1
    · rw [if_pos hsame]
      dsimp only
      exact ⟨hsame.symm, fun c hc => mem_ensure_header_list (row_values g 1) c hc,
        ensure_header_list_ne_nil _, fun i hi => rfl⟩
    · rw [if_neg hsame]
      dsimp only
      have hprefix : ∃ u, ensure_header_list (row_values g 1) = row_values g 1 ++ u
          ∧ ∀ x ∈ u, x ∈ PRODUCT_COLUMNS := by
        unfold ensure_header_list
        rw [if_neg hemp]
        exact ensure_foldl_prefix PRODUCT_COLUMNS (row_values g 1)
      obtain ⟨u, hu, humem⟩ := hprefix
      have hune : u ≠ [] := by
        intro h
        rw [h, List.append_nil] at hu
        exact hsame hu
      obtain ⟨u', x, hx⟩ := (List.eq_nil_or_concat u).resolve_left hune
      have hxPC : x ∈ PRODUCT_COLUMNS := humem x (by simp [hx])
      have hxne : x ≠ "" := by
        intro h
        rw [h] at hxPC
        revert hxPC
        decide
      have hlast : (ensure_header_list (row_values g 1)).getLast? = some x := by
        rw [hu, hx, List.concat_eq_append, ← List.append_assoc]
        exact List.getLast?_concat _
      have hdte : dropTrailingEmpty (ensure_header_list (row_values g 1))
          = ensure_header_list (row_values g 1) :=
        dropTrailingEmpty_eq_self_of_last _ x hlast hxne
      refine ⟨?_, fun c hc => mem_ensure_header_list _ c hc,
        ensure_header_list_ne_nil _, ?_⟩
      · show row_values (update_row g 1 (ensure_header_list (row_values g 1))) 1
            = ensure_header_list (row_values g 1)
        rw [row_values_one, update_row_one_getD]
        obtain ⟨t, hlrow, ht⟩ := dropTrailingEmpty_spec (g.getD 0 [])
        have hdrop : ∀ y ∈ (g.getD 0 []).drop
            (ensure_header_list (row_values g 1)).length, y = "" := by
          intro y hy
          apply ht
          have hlen : (ensure_header_list (row_values g 1)).length
              = (row_values g 1).length + u.length := by
            rw [hu, List.length_append]
          rw [hlen] at hy
          conv at hy => rw [hlrow]
          rw [← row_values_one, List.drop_append] at hy
          exact List.mem_of_mem_drop hy
        rw [dropTrailingEmpty_append_empties _ _ hdrop]
        exact hdte
      · intro i hi
        exact update_row_other g 1 _ i (by omega)

/-- A sheet whose row 1 already reads back a complete header is left
unchanged by `ensure_header`. -/
lemma ensure_header_grid_stable (g1 : Grid) (headers : List String)
    (h1 : row_values g1 1 = headers)
    (h2 : ∀ c ∈ PRODUCT_COLUMNS, c ∈ headers) (h3 : headers ≠ []) :
    ensure_header_grid g1 = (g1, headers) := by
  unfold ensure_header_grid
  rw [h1]
  have hne : headers.isEmpty = false := by
    cases headers
    · exact absurd rfl h3
    · rfl
  simp only [hne, Bool.false_eq_true, if_false]
  have hidem : ensure_header_list headers = headers :=
    ensure_header_list_idem headers h2 (by simp [hne])
  simp [hidem]

/-- Soundness of the code→row map read off a sheet. -/
lemma read_code_map_sound (g : Grid) (c : Nat) (e : String × Nat)
    (he : e ∈ read_code_to_row_map g c) :
    2 ≤ e.2 ∧ e.2 ≤ g.length ∧ pyStrip e.1 = e.1 ∧ e.1 ≠ ""
      ∧ pyStrip ((g.getD (e.2 - 1) []).getD (c - 1) "") = e.1 := by
  unfold read_code_to_row_map at he
  rcases build_code_map_sound _ 2 [] e he with h | h
  · simp at h
  · obtain ⟨j, hj, hs, hi, hne⟩ := h
    have hjlen : j + 1 < (col_values g c).length := by
      have h' : ((col_values g c).drop 1).length = (col_values g c).length - 1 := by
        simp
      omega
    have hcol : ((col_values g c).drop 1).getD j "" = (col_values g c).getD (j + 1) "" := by
      rw [List.getD_eq_getElem?_getD, List.getD_eq_getElem?_getD, List.getElem?_drop,
        Nat.add_comm 1 j]
    have hfull : (col_values g c).getD (j + 1) "" = (fullCol g c).getD (j + 1) "" :=
      dte_getD_of_lt _ _ hjlen
    have hglen : (col_values g c).length ≤ g.length := by
      have h1 := dropTrailingEmpty_length_le (fullCol g c)
      have h2 : (fullCol g c).length = g.length := by simp [fullCol]
      unfold col_values
      omega
    refine ⟨by omega, by omega, ?_, hne, ?_⟩
    · rw [← hs, pyStrip_idem]
    · rw [← fullCol_getD]
      have : e.2 - 1 = j + 1 := by omega
      rw [this]
      rw [hcol, hfull] at hs
      exact hs

lemma read_code_map_inj (g : Grid) (c : Nat) :
    ∀ e1 ∈ read_code_to_row_map g c, ∀ e2 ∈ read_code_to_row_map g c,
      e1.2 = e2.2 → e1 = e2 := by
  unfold read_code_to_row_map
  exact build_code_map_val_inj _ 2 [] (by simp) (by simp)

lemma sync_updated_apply_eq (g : Grid) (prods : List (List (String × String))) :
    sync_updated_apply g prods =
      sync_updated_rows (ensure_header_grid g).2
        (header_index (ensure_header_grid g).2)
        (read_code_to_row_map (ensure_header_grid g).1
          ((mapLookup (header_index (ensure_header_grid g).2) "Code").getD 0 + 1))
        (ensure_header_grid g).1 prods := rfl

/-- Running the update loop a second time on the sheet it produced reports
exactly the same `(rows_updated, skipped_not_found)` counts: the repaired
header, its index, and the code→row map are all unchanged by the first run,
and the counts depend only on the products and the map. -/
lemma sync_updated_apply_second_run (g : Grid)
    (prods : List (List (String × String))) :
    (sync_updated_apply (sync_updated_apply g prods).1 prods).2
      = (sync_updated_apply g prods).2 := by
  obtain ⟨hrow1, hcols, hne, -⟩ := ensure_header_grid_spec g
  have hCode : "Code" ∈ (ensure_header_grid g).2 := hcols _ (by decide)
  obtain ⟨i, hi⟩ := header_index_complete _ _ hCode
  have hml : ∃ i0, mapLookup (header_index (ensure_header_grid g).2) "Code" = some i0 := by
    unfold mapLookup
    rcases hf : (header_index (ensure_header_grid g).2).find? (fun e => e.1 == "Code")
      with _ | e
    · exfalso
      have hsome : ((header_index (ensure_header_grid g).2).find?
          (fun e => e.1 == "Code")).isSome := by
        rw [List.find?_isSome]
        exact ⟨("Code", i), hi, by simp⟩
      rw [hf] at hsome
      simp at hsome
    · exact ⟨e.2, by rw [hf]; rfl⟩
  obtain ⟨i0, hml0⟩ := hml
  have hmem0 : ("Code", i0) ∈ header_index (ensure_header_grid g).2 := mapLookup_mem hml0
  have hms : ∀ e ∈ read_code_to_row_map (ensure_header_grid g).1 (i0 + 1),
      2 ≤ e.2 ∧ e.2 ≤ (ensure_header_grid g).1.length ∧ pyStrip e.1 = e.1 ∧ e.1 ≠ "" ∧
      pyStrip (((ensure_header_grid g).1.getD (e.2 - 1) []).getD i0 "") = e.1 := by
    intro e he
    have h := read_code_map_sound (ensure_header_grid g).1 (i0 + 1) e he
    simpa using h
  obtain ⟨hlen1, hrow01, hcell1⟩ :=
    sync_updated_rows_preserves (ensure_header_grid g).2
      (header_index (ensure_header_grid g).2)
      (read_code_to_row_map (ensure_header_grid g).1 (i0 + 1)) i0
      (fun e he => mem_header_index _ e he) hmem0
      (read_code_map_inj _ _) prods (ensure_header_grid g).1 hms
  have hA := sync_updated_apply_eq g prods
  rw [hml0] at hA
  simp only [Option.getD_some] at hA
  have hrow1' : row_values (sync_updated_apply g prods).1 1 = (ensure_header_grid g).2 := by
    rw [hA, row_values_one, hrow01, ← row_values_one]
    exact hrow1
  have hstable := ensure_header_grid_stable (sync_updated_apply g prods).1
    (ensure_header_grid g).2 hrow1' hcols hne
  have hcong : read_code_to_row_map (sync_updated_apply g prods).1 (i0 + 1)
      = read_code_to_row_map (ensure_header_grid g).1 (i0 + 1) := by
    apply read_code_map_congr
    · rw [hA]
      exact hlen1
    · intro j
      simp only [Nat.add_sub_cancel]
      rw [hA]
      exact (hcell1 j).1
    · intro j
      simp only [Nat.add_sub_cancel]
      rw [hA]
      exact (hcell1 j).2
  have hB := sync_updated_apply_eq (sync_updated_apply g prods).1 prods
  rw [hstable] at hB
  dsimp only at hB
  rw [hml0] at hB
  simp only [Option.getD_some] at hB
  rw [hcong] at hB
  rw [hB, hA]
  obtain ⟨hc1, hc2⟩ := sync_updated_rows_counts (ensure_header_grid g).2
    (header_index (ensure_header_grid g).2)
    (read_code_to_row_map (ensure_header_grid g).1 (i0 + 1)) prods
    (sync_updated_rows (ensure_header_grid g).2
      (header_index (ensure_header_grid g).2)
      (read_code_to_row_map (ensure_header_grid g).1 (i0 + 1))
      (ensure_header_grid g).1 prods).1
  obtain ⟨hd1, hd2⟩ := sync_updated_rows_counts (ensure_header_grid g).2
    (header_index (ensure_header_grid g).2)
    (read_code_to_row_map (ensure_header_grid g).1 (i0 + 1)) prods
    (ensure_header_grid g).1
  refine Prod.ext ?_ ?_
  · rw [hc1, hd1]
  · rw [hc2, hd2]

/-- C1 (counterexample): the update-sync performs no field-level diff and has
no UNCHANGED classification.  On a sheet whose stored row is already
cell-for-cell identical to the freshly normalized record, the run still
reports one row write (`rows_updated = 1`, not 0), and running the sync a
second time on the resulting sheet again reports one row write rather than
the zero writes the claim's idempotence property demands. -/
theorem update_sync_writes_unchanged_rows :
    sync_updated_products_to_sheet c1grid c1start c1end [c1item]
        = some (c1grid, 1, 0)
    ∧ (sync_updated_products_to_sheet c1grid c1start c1end [c1item]).bind
        (fun r => sync_updated_products_to_sheet r.1 c1start c1end [c1item])
        = some (c1grid, 1, 0) := by
  exact ⟨by decide, by decide⟩

/-- C1 (amended): the update loop writes unconditionally — `rows_updated`
counts exactly the products whose non-empty code is found in the code→row
map, with no comparison against the stored row and no UNCHANGED class — and
a second run over the same products reports exactly the same
`(rows_updated, skipped_not_found)` counts as the first, not zero. -/
theorem update_sync_always_writes_matches (g : Grid)
    (prods : List (List (String × String))) :
    (sync_updated_apply g prods).2.1 =
      (prods.filter (fun prod => !((pyGetS prod "Code").getD "" == "") &&
        (mapLookup (read_code_to_row_map (ensure_header_grid g).1
            ((mapLookup (header_index (ensure_header_grid g).2) "Code").getD 0 + 1))
          ((pyGetS prod "Code").getD "")).isSome)).length
    ∧ (sync_updated_apply (sync_updated_apply g prods).1 prods).2
        = (sync_updated_apply g prods).2 := by
  constructor
  · rw [sync_updated_apply_eq]
    exact (sync_updated_rows_counts _ _ _ prods _).1
  · exact sync_updated_apply_second_run g prods

end ProductsSync

